import Mathlib

/-! # Session engine of the guessing-game backend (`src/server.mjs`)

A shallow embedding of the socket handlers of `server.mjs` and of the round-timer
callback, followed by theorems about them.

Modelling conventions.

* The process-wide object `gameSessions` and each `players` object are association
  lists keyed by strings: `lookup` is property read, `setKey` is property write
  (in place when the key exists, appended otherwise) and `deleteKey` is `delete`.
  List order stands for the property enumeration order used by `for ... in`;
  JavaScript enumerates integer-like keys first, which the lists do not reproduce,
  and no statement below depends on the order in which sessions were created.
* `gameSessions` inherits from `Object.prototype`. The handlers `joinSession`,
  `createQuestion`, `startGame`, `makeGuess`, `roundTimer` and the functions built on
  them (`step`, `run`, `Reachable`, `handle`) follow the code when
  `gameSessions[sessionId]` is an own property or `undefined`. The handlers
  `onJoinSession`, `onCreateQuestion`, `onStartGame`, `onMakeGuess`, `onTimer` and
  `onEvent` act on a `World` and cover every session id, including the names of
  inherited properties. Connection ids are the ids socket.io gives its sockets;
  they never name an inherited property.
* `attempts` is an `Int`: the source stores a JavaScript number and decrements it.
* `String.prototype.toLowerCase` is a parameter `lower : String → String` of the
  handlers that call it; `asciiLower` is the instance used on concrete inputs.
* A handler returns the new store together with the list of outward calls it made,
  in program order (`Effect`). Calls to `console.log` are not recorded, and the
  outcome of the score query is not part of the model.
* `join-session` is asynchronous: the event of the model is the continuation after
  `await db.query`, carrying the outcome of the query (`none` when it rejected).
* A handler or callback that throws returns `Except.error`. Nothing catches such an
  error in `server.mjs` (the `try` of `join-session` apart), so no state after it is
  given.
-/

namespace GuessingGame

/-- Values assigned to `session.status` by the handlers. -/
inductive Status where
  | waiting
  | ready
  | in_progress
  | ended
deriving DecidableEq, Repr

/-- One entry of `session.players`, as built by the `join-session` handler. -/
structure Player where
  userId : Nat
  username : String
  attempts : Int
  isWinner : Bool
deriving DecidableEq, Repr

/-- One entry of `gameSessions`. `question` and `answer` are absent (`undefined`)
until `create-question` assigns them. -/
structure Session where
  players : List (String × Player)
  status : Status
  question : Option String
  answer : Option String
deriving DecidableEq, Repr

/-- The object `gameSessions`: sessionId ↦ session. -/
abbrev Store := List (String × Session)

/-- Property read `obj[k]`; `none` is `undefined`. -/
def lookup {α : Type} (k : String) : List (String × α) → Option α
  | [] => none
  | (k', v) :: rest => if k' = k then some v else lookup k rest

/-- Property write `obj[k] = v`. -/
def setKey {α : Type} (k : String) (v : α) : List (String × α) → List (String × α)
  | [] => [(k, v)]
  | (k', v') :: rest => if k' = k then (k, v) :: rest else (k', v') :: setKey k v rest

/-- Property removal `delete obj[k]`. -/
def deleteKey {α : Type} (k : String) (l : List (String × α)) : List (String × α) :=
  l.filter (fun e => decide (e.1 ≠ k))

/-- Payloads of the outbound socket events. -/
inductive Payload where
  | sessionUpdate (snapshot : Session)
  | questionCreated (question : String)
  | gameStarted (question : Option String)
  | gameEnded (winner : Option String) (answer : Option String)
  | wrongGuess (attemptsLeft : Int)
deriving DecidableEq, Repr

/-- Outward calls made by the handlers. -/
inductive Effect where
  /-- The call `io.to(sessionId).emit(...)`. -/
  | broadcast (sessionId : String) (payload : Payload)
  /-- The call `socket.emit(...)` on the socket with the given id. -/
  | send (conn : String) (payload : Payload)
  /-- The call `socket.join(sessionId)`. -/
  | joinRoom (conn : String) (sessionId : String)
  /-- The query `UPDATE users SET score = score + delta WHERE id = userId`. -/
  | addScore (userId : Nat) (delta : Nat)
  /-- The call `setTimeout(callback, ms)` whose callback is `roundTimer` for the session. -/
  | setTimeout (sessionId : String) (ms : Nat)
deriving DecidableEq, Repr

/-- Errors a callback can throw. -/
inductive Err where
  /-- Reading a property of `undefined`. -/
  | typeError
deriving DecidableEq, Repr

/-- Inbound events: the five socket events and the firing of a round timer. -/
inductive Event where
  | join (conn : String) (username : String) (sessionId : String) (dbUser : Option Nat)
  | createQuestion (sessionId : String) (question : String) (answer : String)
  | startGame (sessionId : String)
  | makeGuess (conn : String) (sessionId : String) (guess : String)
  | timer (sessionId : String)
  | disconnect (conn : String)
deriving DecidableEq, Repr

/-- The session object literal of `join-session` (lines 45-48). -/
def newSession : Session :=
  { players := [], status := Status.waiting, question := none, answer := none }

/-- The player object literal of `join-session` (lines 51-56). -/
def newPlayer (userId : Nat) (username : String) : Player :=
  { userId := userId, username := username, attempts := 3, isWinner := false }

/-- Handler of `join-session` (lines 36-65), from the point where the query resolved
with user id `dbUser`, or rejected (`none`, caught by the `try`), when
`gameSessions[sessionId]` is an own property or `undefined`; `onJoinSession` covers
every session id. -/
def joinSession (st : Store) (conn username sessionId : String) (dbUser : Option Nat) :
    Store × List Effect :=
  match dbUser with
  | none => (st, [])
  | some uid =>
    let session := (lookup sessionId st).getD newSession
    let session1 : Session :=
      { session with players := setKey conn (newPlayer uid username) session.players }
    (setKey sessionId session1 st,
      [Effect.joinRoom conn sessionId,
       Effect.broadcast sessionId (Payload.sessionUpdate session1)])

/-- Handler of `create-question` (lines 67-74) when `gameSessions[sessionId]` is an
own property or `undefined`; `onCreateQuestion` covers every session id. -/
def createQuestion (lower : String → String) (st : Store)
    (sessionId question answer : String) : Store × List Effect :=
  match lookup sessionId st with
  | none => (st, [])
  | some session =>
    (setKey sessionId
        { session with
          question := some question, answer := some (lower answer), status := Status.ready } st,
      [Effect.broadcast sessionId (Payload.questionCreated question)])

/-- Handler of `start-game` (lines 76-93) when `gameSessions[sessionId]` is an own
property or `undefined`; the timer callback is `roundTimer`, and `onStartGame`
covers every session id. -/
def startGame (st : Store) (sessionId : String) : Store × List Effect :=
  match lookup sessionId st with
  | none => (st, [])
  | some session =>
    (setKey sessionId { session with status := Status.in_progress } st,
      [Effect.broadcast sessionId (Payload.gameStarted session.question),
       Effect.setTimeout sessionId 60000])

/-- Callback given to `setTimeout` by `start-game` (lines 83-91). It reads
`gameSessions[sessionId].status` without testing that the session exists. This is
the callback when `gameSessions[sessionId]` is an own property or `undefined`;
`onTimer` covers every session id. -/
def roundTimer (st : Store) (sessionId : String) : Except Err (Store × List Effect) :=
  match lookup sessionId st with
  | none => Except.error Err.typeError
  | some session =>
    if session.status = Status.in_progress then
      Except.ok (setKey sessionId { session with status := Status.ended } st,
        [Effect.broadcast sessionId (Payload.gameEnded none session.answer)])
    else
      Except.ok (st, [])

/-- Handler of `make-guess` (lines 95-117) when `gameSessions[sessionId]` is an own
property or `undefined`; `onMakeGuess` covers every session id. -/
def makeGuess (lower : String → String) (st : Store) (conn sessionId guess : String) :
    Store × List Effect :=
  match lookup sessionId st with
  | none => (st, [])
  | some session =>
    if session.status ≠ Status.in_progress then (st, [])
    else
      match lookup conn session.players with
      | none => (st, [])
      | some player =>
        if player.attempts = 0 ∨ player.isWinner = true then (st, [])
        else
          let player1 : Player := { player with attempts := player.attempts - 1 }
          if some (lower guess) = session.answer then
            let player2 : Player := { player1 with isWinner := true }
            (setKey sessionId
                { session with
                  status := Status.ended, players := setKey conn player2 session.players } st,
              [Effect.broadcast sessionId
                 (Payload.gameEnded (some player2.username) session.answer),
               Effect.addScore player2.userId 10])
          else
            (setKey sessionId { session with players := setKey conn player1 session.players } st,
              [Effect.send conn (Payload.wrongGuess player1.attempts)])

/-- Lines 122-127 of the `disconnect` handler without the emit: the session after
`delete players[socket.id]`, executed only when the player exists. -/
def removePlayer (conn : String) (session : Session) : Session :=
  if (lookup conn session.players).isSome then
    { session with players := deleteKey conn session.players }
  else session

/-- Handler of `disconnect` (lines 119-132): the `for ... in` loop over `gameSessions`.
The emit of line 125 precedes the emptiness test of line 128. -/
def disconnect (conn : String) : Store → Store × List Effect
  | [] => ([], [])
  | (sessionId, session) :: rest =>
    let session1 := removePlayer conn session
    let emitted : List Effect :=
      if (lookup conn session.players).isSome then
        [Effect.broadcast sessionId (Payload.sessionUpdate session1)]
      else []
    let out := disconnect conn rest
    if session1.players.length = 0 then (out.1, emitted ++ out.2)
    else ((sessionId, session1) :: out.1, emitted ++ out.2)

/-- One event handled by the process, when the session id of the event is an own
property of `gameSessions` or `undefined`; `onEvent` covers every session id. -/
def step (lower : String → String) (st : Store) : Event → Except Err (Store × List Effect)
  | Event.join conn username sessionId dbUser =>
    Except.ok (joinSession st conn username sessionId dbUser)
  | Event.createQuestion sessionId question answer =>
    Except.ok (createQuestion lower st sessionId question answer)
  | Event.startGame sessionId => Except.ok (startGame st sessionId)
  | Event.makeGuess conn sessionId guess => Except.ok (makeGuess lower st conn sessionId guess)
  | Event.timer sessionId => roundTimer st sessionId
  | Event.disconnect conn => Except.ok (disconnect conn st)

/-- A finite sequence of events handled one at a time, in order; the effects are
accumulated in program order and a thrown error ends the run. -/
def run (lower : String → String) (st : Store) : List Event → Except Err (Store × List Effect)
  | [] => Except.ok (st, [])
  | e :: es =>
    match step lower st e with
    | Except.error err => Except.error err
    | Except.ok (st1, effs1) =>
      match run lower st1 es with
      | Except.error err => Except.error err
      | Except.ok (st2, effs2) => Except.ok (st2, effs1 ++ effs2)

/-- Stores reachable from the empty store by a finite sequence of events. Timer
events are allowed at any point, whether or not a timer is pending. -/
def Reachable (lower : String → String) (st : Store) : Prop :=
  ∃ (es : List Event) (effs : List Effect), run lower [] es = Except.ok (st, effs)

/-- ASCII lower-casing of one character. -/
def lowerChar (ch : Char) : Char :=
  if 65 ≤ ch.toNat ∧ ch.toNat ≤ 90 then Char.ofNat (ch.toNat + 32) else ch

/-- The function `toLowerCase` on strings of ASCII characters. -/
def asciiLower (s : String) : String :=
  String.mk (s.data.map lowerChar)

/-- Number of entries of a `players` object whose `isWinner` flag is set. -/
def winnerCount (players : List (String × Player)) : Nat :=
  (players.filter (fun p => p.2.isWinner)).length

/-- The winner invariant of the data model: every session has at most one winner,
and has one only when its status is `ended`. -/
def WinnerInv (st : Store) : Prop :=
  ∀ e ∈ st, winnerCount e.2.players ≤ 1 ∧
    (0 < winnerCount e.2.players → e.2.status = Status.ended)

/-- The session whose status an event sets without looking at the players:
`create-question` and `start-game`. -/
def roundReset : Event → Option String
  | Event.createQuestion sessionId _ _ => some sessionId
  | Event.startGame sessionId => some sessionId
  | _ => none

/-- Two players join, a round is won by B, a second question is set: the store at
that point is `wonThenReadyStore`. -/
def wonThenReadyTrace : List Event :=
  [Event.join "A" "alice" "s1" (some 1), Event.join "B" "bob" "s1" (some 2),
   Event.createQuestion "s1" "2+2?" "4", Event.startGame "s1",
   Event.makeGuess "B" "s1" "4", Event.createQuestion "s1" "3+3?" "6"]

/-- Store after `wonThenReadyTrace`. -/
def wonThenReadyStore : Store :=
  [("s1",
    { players := [("A", { userId := 1, username := "alice", attempts := 3, isWinner := false }),
                  ("B", { userId := 2, username := "bob", attempts := 2, isWinner := true })],
      status := Status.ready, question := some "3+3?", answer := some "6" })]

/-- The trace `wonThenReadyTrace` followed by a second round, won by A. -/
def twoRoundTrace : List Event :=
  wonThenReadyTrace ++ [Event.startGame "s1", Event.makeGuess "A" "s1" "6"]

/-- Store after `twoRoundTrace`. -/
def twoWinnerStore : Store :=
  [("s1",
    { players := [("A", { userId := 1, username := "alice", attempts := 2, isWinner := true }),
                  ("B", { userId := 2, username := "bob", attempts := 2, isWinner := true })],
      status := Status.ended, question := some "3+3?", answer := some "6" })]

/-- A round in progress with two players who have not guessed yet. -/
def roundSession : Session :=
  { players := [("A", { userId := 1, username := "alice", attempts := 3, isWinner := false }),
                ("B", { userId := 2, username := "bob", attempts := 3, isWinner := false })],
    status := Status.in_progress, question := some "2+2?", answer := some "4" }

/-- The store holding `roundSession` under the id `s1`. -/
def roundStore : Store :=
  [("s1", roundSession)]

/-- Events leading from the empty store to `roundStore`. -/
def roundTrace : List Event :=
  [Event.join "A" "alice" "s1" (some 1), Event.join "B" "bob" "s1" (some 2),
   Event.createQuestion "s1" "2+2?" "4", Event.startGame "s1"]

/-- The answer/status invariant of the data model: a session has its answer set
exactly when its status is not `waiting`. -/
def AnswerStatusInv (st : Store) : Prop :=
  ∀ e ∈ st, (e.2.answer.isSome = true ↔ e.2.status ≠ Status.waiting)

/-- One direction of `AnswerStatusInv`: a session whose answer is set is not `waiting`. -/
def AnswerSetInv (st : Store) : Prop :=
  ∀ e ∈ st, e.2.answer.isSome = true → e.2.status ≠ Status.waiting

/-- A player joins and the round is started without any question. -/
def startedUnsetTrace : List Event :=
  [Event.join "A" "alice" "s1" (some 1), Event.startGame "s1"]

/-- Store after `startedUnsetTrace`. -/
def startedUnsetStore : Store :=
  [("s1",
    { players := [("A", { userId := 1, username := "alice", attempts := 3, isWinner := false })],
      status := Status.in_progress, question := none, answer := none })]

/-- A round is started and its only player disconnects before the timer fires. -/
def abandonedRoundTrace : List Event :=
  [Event.join "A" "alice" "s1" (some 1), Event.startGame "s1", Event.disconnect "A"]

/-- Single membership: a connection has a Player in at most one session. -/
def SingleMembership (st : Store) : Prop :=
  ∀ (c : String), ∀ e1 ∈ st, ∀ e2 ∈ st,
    (lookup c e1.2.players).isSome = true → (lookup c e2.2.players).isSome = true → e1.1 = e2.1

/-- The keys of an association list are pairwise distinct. -/
def KeysDistinct {α : Type} (l : List (String × α)) : Prop :=
  (l.map Prod.fst).Nodup

/-- Session ids are distinct, and within each session so are the connection ids. -/
def WellFormed (st : Store) : Prop :=
  KeysDistinct st ∧ ∀ e ∈ st, KeysDistinct e.2.players

/-- One connection joins two sessions. -/
def twoSessionTrace : List Event :=
  [Event.join "A" "alice" "s1" (some 1), Event.join "A" "alice" "s2" (some 1)]

/-- Store after `twoSessionTrace`. -/
def twoSessionStore : Store :=
  [("s1",
    { players := [("A", { userId := 1, username := "alice", attempts := 3, isWinner := false })],
      status := Status.waiting, question := none, answer := none }),
   ("s2",
    { players := [("A", { userId := 1, username := "alice", attempts := 3, isWinner := false })],
      status := Status.waiting, question := none, answer := none })]

/-- A session that A has just joined, alone and before any question. -/
def loneStore : Store :=
  (joinSession [] "A" "alice" "s1" (some 1)).1

/-- The store and the effects of an event at the point where its handler returns or
throws. `roundTimer` on an absent session throws while evaluating the condition of
its `if`, before any write or emit, so the store at that point is the one before the
event. What the runtime does with the uncaught error is not described by `handle`. -/
def handle (lower : String → String) (st : Store) (e : Event) : Store × List Effect :=
  match step lower st e with
  | Except.ok r => r
  | Except.error _ => (st, [])

/-- Attempts range: every Player of every session has `0 ≤ attempts ≤ 3`. -/
def AttemptsInv (st : Store) : Prop :=
  ∀ e ∈ st, ∀ pe ∈ e.2.players, 0 ≤ pe.2.attempts ∧ pe.2.attempts ≤ 3

/-- Attempts monotonicity for one event: a Player present in the same session before
and after the event has not gained attempts. -/
def AttemptsMonotone (lower : String → String) (st : Store) (e : Event) : Prop :=
  ∀ (sid c : String) (s s1 : Session) (p p1 : Player),
    lookup sid st = some s → lookup c s.players = some p →
    lookup sid (handle lower st e).1 = some s1 → lookup c s1.players = some p1 →
    p1.attempts ≤ p.attempts

/-- Store after B has made one wrong guess in `roundStore`. -/
def guessedStore : Store :=
  [("s1",
    { players := [("A", { userId := 1, username := "alice", attempts := 3, isWinner := false }),
                  ("B", { userId := 2, username := "bob", attempts := 2, isWinner := false })],
      status := Status.in_progress, question := some "2+2?", answer := some "4" })]

/-- No dead sessions: every session of the store has at least one player. -/
def NoDeadSession (st : Store) : Prop :=
  ∀ e ∈ st, e.2.players ≠ []

/-- The session id carried by the payload of an event; `disconnect` carries none. -/
def eventSession : Event → Option String
  | Event.join _ _ sessionId _ => some sessionId
  | Event.createQuestion sessionId _ _ => some sessionId
  | Event.startGame sessionId => some sessionId
  | Event.makeGuess _ sessionId _ => some sessionId
  | Event.timer sessionId => some sessionId
  | Event.disconnect _ => none

/-- The session an effect is addressed to: the room of a broadcast or of a
`socket.join`, the session of a scheduled timer. A direct send and a score update
are addressed to no session. -/
def addressedTo : Effect → Option String
  | Effect.broadcast sessionId _ => some sessionId
  | Effect.joinRoom _ sessionId => some sessionId
  | Effect.setTimeout sessionId _ => some sessionId
  | Effect.send _ _ => none
  | Effect.addScore _ _ => none

/-- Round 1 is started and won by B, then a second question is set and round 2 is
started; the timer of round 1 is still pending. -/
def secondRoundTrace : List Event :=
  wonThenReadyTrace ++ [Event.startGame "s1"]

/-- Store after `secondRoundTrace`: round 2 is in progress. -/
def secondRoundStore : Store :=
  [("s1",
    { players := [("A", { userId := 1, username := "alice", attempts := 3, isWinner := false }),
                  ("B", { userId := 2, username := "bob", attempts := 2, isWinner := true })],
      status := Status.in_progress, question := some "3+3?", answer := some "6" })]

/-- Store after the timer of round 1 has fired during round 2. -/
def staleEndedStore : Store :=
  [("s1",
    { players := [("A", { userId := 1, username := "alice", attempts := 3, isWinner := false }),
                  ("B", { userId := 2, username := "bob", attempts := 2, isWinner := true })],
      status := Status.ended, question := some "3+3?", answer := some "6" })]

/-- Whether an effect is a `session-update` broadcast. -/
def isSessionUpdate : Effect → Bool
  | Effect.broadcast _ (Payload.sessionUpdate _) => true
  | _ => false

/-! ### Session ids that name an inherited property

`gameSessions` is created by the literal `{}` (line 31), so `gameSessions[k]` is also
truthy when `k` names a property inherited from `Object.prototype`. The handlers
above follow the code when `gameSessions[sessionId]` is an own property or
`undefined`; the handlers below (`onJoinSession`, ...) are the handlers on every
session id: they add the case where the lookup reaches an inherited object.
That object has no `players`, and the handlers can write `status`, `question` and
`answer` onto it. -/

/-- Names of the properties every plain object inherits from `Object.prototype`. -/
def inheritedNames : List String :=
  ["constructor", "__defineGetter__", "__defineSetter__", "hasOwnProperty",
   "__lookupGetter__", "__lookupSetter__", "isPrototypeOf", "propertyIsEnumerable",
   "toString", "valueOf", "__proto__", "toLocaleString"]

/-- Whether a key names a property inherited from `Object.prototype`. -/
def isInherited (k : String) : Bool :=
  decide (k ∈ inheritedNames)

/-- The properties the handlers have written onto one inherited object. -/
structure Written where
  status : Option Status
  question : Option String
  answer : Option String
deriving DecidableEq, Repr

/-- An inherited object no handler has written to. -/
def Written.blank : Written :=
  { status := none, question := none, answer := none }

/-- The state the handlers act on: the own properties of `gameSessions`, and what has
been written onto the inherited objects, by the name under which they are found. -/
structure World where
  sessions : Store
  written : List (String × Written)
deriving DecidableEq, Repr

/-- The state at start-up: no session, inherited objects untouched. -/
def initialWorld : World :=
  { sessions := [], written := [] }

/-- The world holding the given sessions, with the inherited objects untouched. -/
def worldOf (st : Store) : World :=
  { sessions := st, written := [] }

/-- Whether `gameSessions[sessionId]` is an inherited object: the id names an
inherited property and no own property shadows it. -/
def reachesInherited (w : World) (sessionId : String) : Bool :=
  (lookup sessionId w.sessions).isNone && isInherited sessionId

/-- The properties written so far onto the inherited object found under a name. -/
def writtenOn (w : World) (sessionId : String) : Written :=
  (lookup sessionId w.written).getD Written.blank

/-- Whether a handler has written onto `Object.prototype` itself, which is what
`gameSessions["__proto__"]` evaluates to. Every object then inherits the written
properties, and they are enumerated by `for ... in`. -/
def polluted (w : World) : Bool :=
  (lookup "__proto__" w.written).isSome

/-- No handler has written onto `Object.prototype`. The handlers below follow the
code in such a world; in a polluted one they do not follow the reads that fall
through to `Object.prototype`, except for the loop of `disconnect`. -/
def Pristine (w : World) : Prop :=
  polluted w = false

/-- Handler of `join-session` on every session id. On an inherited object line 44
creates nothing and line 51 reads its `players`, which is `undefined`: the
`TypeError` is caught at line 62, before `socket.join` and the emit. -/
def onJoinSession (w : World) (conn username sessionId : String) (dbUser : Option Nat) :
    World × List Effect :=
  if reachesInherited w sessionId then (w, [])
  else
    ({ w with sessions := (joinSession w.sessions conn username sessionId dbUser).1 },
      (joinSession w.sessions conn username sessionId dbUser).2)

/-- Handler of `create-question` on every session id. On an inherited object the test
of line 68 passes, lines 69-71 write onto that object and line 72 emits. -/
def onCreateQuestion (lower : String → String) (w : World)
    (sessionId question answer : String) : World × List Effect :=
  if reachesInherited w sessionId then
    ({ w with
       written := setKey sessionId
         { status := some Status.ready, question := some question,
           answer := some (lower answer) } w.written },
      [Effect.broadcast sessionId (Payload.questionCreated question)])
  else
    ({ w with sessions := (createQuestion lower w.sessions sessionId question answer).1 },
      (createQuestion lower w.sessions sessionId question answer).2)

/-- Handler of `start-game` on every session id. On an inherited object the test of
line 77 passes, line 78 writes `status` onto it, line 79 emits and line 83 schedules
the timer. -/
def onStartGame (w : World) (sessionId : String) : World × List Effect :=
  if reachesInherited w sessionId then
    ({ w with
       written := setKey sessionId
         { writtenOn w sessionId with status := some Status.in_progress } w.written },
      [Effect.broadcast sessionId (Payload.gameStarted (writtenOn w sessionId).question),
       Effect.setTimeout sessionId 60000])
  else
    ({ w with sessions := (startGame w.sessions sessionId).1 },
      (startGame w.sessions sessionId).2)

/-- Timer callback on every session id (lines 83-91). On an inherited object it reads
and writes the `status` written onto that object. -/
def onTimer (w : World) (sessionId : String) : Except Err (World × List Effect) :=
  if reachesInherited w sessionId then
    if (writtenOn w sessionId).status = some Status.in_progress then
      Except.ok
        ({ w with
           written := setKey sessionId
             { writtenOn w sessionId with status := some Status.ended } w.written },
          [Effect.broadcast sessionId
             (Payload.gameEnded none (writtenOn w sessionId).answer)])
    else Except.ok (w, [])
  else
    match roundTimer w.sessions sessionId with
    | Except.ok r => Except.ok ({ w with sessions := r.1 }, r.2)
    | Except.error err => Except.error err

/-- Handler of `make-guess` on every session id. On an inherited object whose
`status` has been set to `in_progress` the test of line 97 passes and line 99 reads
`session.players[socket.id]` with `players` `undefined`: it throws. -/
def onMakeGuess (lower : String → String) (w : World) (conn sessionId guess : String) :
    Except Err (World × List Effect) :=
  if reachesInherited w sessionId then
    if (writtenOn w sessionId).status = some Status.in_progress then
      Except.error Err.typeError
    else Except.ok (w, [])
  else
    Except.ok
      ({ w with sessions := (makeGuess lower w.sessions conn sessionId guess).1 },
        (makeGuess lower w.sessions conn sessionId guess).2)

/-- Handler of `disconnect` in a world. The built-in properties of `Object.prototype`
are not enumerable, so the loop visits the sessions only; once a handler has written
onto `Object.prototype` the loop also visits the written names, finds a string and
throws at line 128. -/
def onDisconnect (w : World) (conn : String) : Except Err (World × List Effect) :=
  if polluted w then Except.error Err.typeError
  else
    Except.ok
      ({ w with sessions := (disconnect conn w.sessions).1 }, (disconnect conn w.sessions).2)

/-- One event handled by the process, on every session id. -/
def onEvent (lower : String → String) (w : World) : Event → Except Err (World × List Effect)
  | Event.join conn username sessionId dbUser =>
    Except.ok (onJoinSession w conn username sessionId dbUser)
  | Event.createQuestion sessionId question answer =>
    Except.ok (onCreateQuestion lower w sessionId question answer)
  | Event.startGame sessionId => Except.ok (onStartGame w sessionId)
  | Event.makeGuess conn sessionId guess => onMakeGuess lower w conn sessionId guess
  | Event.timer sessionId => onTimer w sessionId
  | Event.disconnect conn => onDisconnect w conn

/-- A finite sequence of events handled one at a time, on every session id. -/
def runEvents (lower : String → String) (w : World) :
    List Event → Except Err (World × List Effect)
  | [] => Except.ok (w, [])
  | e :: es =>
    match onEvent lower w e with
    | Except.error err => Except.error err
    | Except.ok (w1, effs1) =>
      match runEvents lower w1 es with
      | Except.error err => Except.error err
      | Except.ok (w2, effs2) => Except.ok (w2, effs1 ++ effs2)

/-- A joins `s1`, B joins `s9` and starts its round, then B disconnects: `s9` is
deleted while its timer is pending. -/
def isolationTrace : List Event :=
  [Event.join "A" "alice" "s1" (some 1), Event.join "B" "bob" "s9" (some 2),
   Event.startGame "s9", Event.disconnect "B"]

/-- World after `isolationTrace`: only A's session `s1` is left. -/
def isolationWorld : World :=
  { sessions :=
      [("s1",
        { players :=
            [("A", { userId := 1, username := "alice", attempts := 3, isWinner := false })],
          status := Status.waiting, question := none, answer := none })],
    written := [] }

/-! ## Association lists -/


theorem lookup_setKey_self {α : Type} (k : String) (v : α) (l : List (String × α)) :
    lookup k (setKey k v l) = some v := by
  induction l with
  | nil => simp [setKey, lookup]
  | cons hd tl ih =>
    obtain ⟨k', v'⟩ := hd
    by_cases h : k' = k
    · simp [setKey, lookup, h]
    · simp [setKey, lookup, h, ih]

theorem lookup_setKey_ne {α : Type} (k k' : String) (v : α) (l : List (String × α))
    (hne : k' ≠ k) : lookup k' (setKey k v l) = lookup k' l := by
  induction l with
  | nil => simp [setKey, lookup, Ne.symm hne]
  | cons hd tl ih =>
    obtain ⟨k0, v0⟩ := hd
    by_cases h : k0 = k
    · subst h
      simp [setKey, lookup, Ne.symm hne]
    · by_cases h2 : k0 = k'
      · subst h2
        simp [setKey, lookup, hne]
      · simp [setKey, lookup, h, h2, ih]

theorem mem_setKey {α : Type} (k : String) (v : α) (l : List (String × α))
    (x : String × α) (hx : x ∈ setKey k v l) : x = (k, v) ∨ x ∈ l := by
  induction l with
  | nil => simpa [setKey] using hx
  | cons hd tl ih =>
    obtain ⟨k0, v0⟩ := hd
    by_cases h : k0 = k
    · simp [setKey, h] at hx
      rcases hx with hx | hx
      · exact Or.inl hx
      · exact Or.inr (List.mem_cons_of_mem _ hx)
    · simp [setKey, h] at hx
      rcases hx with hx | hx
      · exact Or.inr (by simp [hx])
      · rcases ih hx with h1 | h1
        · exact Or.inl h1
        · exact Or.inr (List.mem_cons_of_mem _ h1)

theorem lookup_mem {α : Type} (k : String) (v : α) (l : List (String × α))
    (h : lookup k l = some v) : (k, v) ∈ l := by
  induction l with
  | nil => simp [lookup] at h
  | cons hd tl ih =>
    obtain ⟨k0, v0⟩ := hd
    by_cases hk : k0 = k
    · simp [lookup, hk] at h
      simp [hk, h]
    · simp [lookup, hk] at h
      exact List.mem_cons_of_mem _ (ih h)

theorem keys_setKey {α : Type} (k : String) (v v0 : α) (l : List (String × α))
    (h : lookup k l = some v0) : (setKey k v l).map Prod.fst = l.map Prod.fst := by
  induction l with
  | nil => simp [lookup] at h
  | cons hd tl ih =>
    obtain ⟨k0, v1⟩ := hd
    by_cases hk : k0 = k
    · simp [setKey, hk]
    · simp [lookup, hk] at h
      simp [setKey, hk, ih h]

theorem lookup_deleteKey_self {α : Type} (k : String) (l : List (String × α)) :
    lookup k (deleteKey k l) = none := by
  induction l with
  | nil => simp [deleteKey, lookup]
  | cons hd tl ih =>
    obtain ⟨k0, v0⟩ := hd
    by_cases hk : k0 = k
    · simpa [deleteKey, List.filter_cons, hk] using ih
    · simpa [deleteKey, List.filter_cons, hk, lookup] using ih

theorem lookup_deleteKey_ne {α : Type} (k k' : String) (l : List (String × α))
    (hne : k' ≠ k) : lookup k' (deleteKey k l) = lookup k' l := by
  induction l with
  | nil => simp [deleteKey, lookup]
  | cons hd tl ih =>
    obtain ⟨k0, v0⟩ := hd
    by_cases hk : k0 = k
    · subst hk
      simpa [deleteKey, List.filter_cons, lookup, Ne.symm hne] using ih
    · by_cases h2 : k0 = k'
      · subst h2
        simp [deleteKey, List.filter_cons, hne, lookup]
      · simpa [deleteKey, List.filter_cons, hk, lookup, h2] using ih

/-! ## Winner flags -/

theorem winnerCount_setKey_le (c : String) (p : Player) (l : List (String × Player)) :
    winnerCount (setKey c p l) ≤ winnerCount l + 1 := by
  induction l with
  | nil => cases hp : p.isWinner <;> simp [winnerCount, setKey, hp]
  | cons hd tl ih =>
    obtain ⟨k0, p0⟩ := hd
    by_cases hk : k0 = c
    · cases hp : p.isWinner <;> cases hp0 : p0.isWinner <;>
        simp [winnerCount, setKey, hk, List.filter_cons, hp, hp0]
      omega
    · cases hp0 : p0.isWinner
      · simpa [winnerCount, setKey, hk, List.filter_cons, hp0] using ih
      · simpa [winnerCount, setKey, hk, List.filter_cons, hp0] using ih

theorem winnerCount_setKey_false (c : String) (p : Player) (l : List (String × Player))
    (hp : p.isWinner = false) : winnerCount (setKey c p l) ≤ winnerCount l := by
  induction l with
  | nil => simp [winnerCount, setKey, hp]
  | cons hd tl ih =>
    obtain ⟨k0, p0⟩ := hd
    by_cases hk : k0 = c
    · cases hp0 : p0.isWinner <;>
        simp [winnerCount, setKey, hk, List.filter_cons, hp, hp0]
    · cases hp0 : p0.isWinner
      · simpa [winnerCount, setKey, hk, List.filter_cons, hp0] using ih
      · simpa [winnerCount, setKey, hk, List.filter_cons, hp0] using ih

theorem winnerCount_deleteKey_le (c : String) (l : List (String × Player)) :
    winnerCount (deleteKey c l) ≤ winnerCount l := by
  unfold winnerCount deleteKey
  exact List.Sublist.length_le (List.Sublist.filter _ (List.filter_sublist l))

theorem winnerCount_removePlayer_le (c : String) (s : Session) :
    winnerCount (removePlayer c s).players ≤ winnerCount s.players := by
  unfold removePlayer
  split
  · exact winnerCount_deleteKey_le c s.players
  · exact le_refl _

theorem removePlayer_status (c : String) (s : Session) :
    (removePlayer c s).status = s.status := by
  unfold removePlayer
  split <;> rfl

theorem removePlayer_answer (c : String) (s : Session) :
    (removePlayer c s).answer = s.answer := by
  unfold removePlayer
  split <;> rfl

theorem mem_disconnect (c : String) (st : Store) (e : String × Session) :
    e ∈ (disconnect c st).1 ↔
      ∃ s, (e.1, s) ∈ st ∧ e.2 = removePlayer c s ∧ (removePlayer c s).players ≠ [] := by
  induction st with
  | nil => simp [disconnect]
  | cons hd tl ih =>
    obtain ⟨sid, s0⟩ := hd
    obtain ⟨k, v⟩ := e
    by_cases hemp : (removePlayer c s0).players = []
    · simp only [disconnect, hemp, List.length_nil, if_true]
      rw [ih]
      constructor
      · rintro ⟨s, hs, h1, h2⟩
        exact ⟨s, List.mem_cons_of_mem _ hs, h1, h2⟩
      · rintro ⟨s, hs, h1, h2⟩
        rcases List.mem_cons.mp hs with h | h
        · injection h with h3 h4
          subst h4
          exact absurd hemp h2
        · exact ⟨s, h, h1, h2⟩
    · have hlen : ¬ (removePlayer c s0).players.length = 0 := by
        simpa [List.length_eq_zero] using hemp
      simp only [disconnect, hlen, if_false, List.mem_cons]
      rw [ih]
      constructor
      · rintro (h | ⟨s, hs, h1, h2⟩)
        · injection h with h3 h4
          subst h3 h4
          exact ⟨s0, Or.inl rfl, rfl, hemp⟩
        · exact ⟨s, Or.inr hs, h1, h2⟩
      · rintro ⟨s, hs, h1, h2⟩
        rcases hs with h | h
        · injection h with h3 h4
          subst h3 h4
          exact Or.inl (by simp at h1 ⊢; exact h1)
        · exact Or.inr ⟨s, h, h1, h2⟩

theorem winnerInv_setKey (st : Store) (sid : String) (s : Session) (hinv : WinnerInv st)
    (hs : winnerCount s.players ≤ 1 ∧ (0 < winnerCount s.players → s.status = Status.ended)) :
    WinnerInv (setKey sid s st) := by
  intro e he
  rcases mem_setKey sid s st e he with h | h
  · subst h
    exact hs
  · exact hinv e h

theorem winnerInv_joinSession (st : Store) (c u sid : String) (dbUser : Option Nat)
    (hinv : WinnerInv st) : WinnerInv (joinSession st c u sid dbUser).1 := by
  cases dbUser with
  | none => exact hinv
  | some uid =>
    simp only [joinSession]
    apply winnerInv_setKey _ _ _ hinv
    have hle := winnerCount_setKey_false c (newPlayer uid u)
      ((lookup sid st).getD newSession).players rfl
    cases hl : lookup sid st with
    | none =>
      rw [hl] at hle
      simp only [Option.getD_none] at hle ⊢
      have h0 : winnerCount newSession.players = 0 := rfl
      constructor
      · omega
      · intro hpos
        omega
    | some s =>
      rw [hl] at hle
      simp only [Option.getD_some] at hle ⊢
      have hs := hinv _ (lookup_mem sid s st hl)
      constructor
      · exact le_trans hle hs.1
      · intro hpos
        exact hs.2 (lt_of_lt_of_le hpos hle)

theorem winnerInv_makeGuess (lower : String → String) (st : Store) (c sid g : String)
    (hinv : WinnerInv st) : WinnerInv (makeGuess lower st c sid g).1 := by
  unfold makeGuess
  cases hl : lookup sid st with
  | none => exact hinv
  | some s =>
    have hs := hinv _ (lookup_mem sid s st hl)
    simp only
    by_cases hst : s.status = Status.in_progress
    · have h0 : winnerCount s.players = 0 := by
        by_contra hne
        have := hs.2 (Nat.pos_of_ne_zero hne)
        rw [hst] at this
        exact Status.noConfusion this
      simp only [hst, ne_eq, not_true_eq_false, if_false]
      cases hp : lookup c s.players with
      | none => exact hinv
      | some p =>
        simp only
        by_cases hg : p.attempts = 0 ∨ p.isWinner = true
        · simp only [hg, if_true]
          exact hinv
        · simp only [hg, if_false]
          have hw : p.isWinner = false := by
            cases h : p.isWinner
            · rfl
            · exact absurd (Or.inr h) hg
          by_cases ha : some (lower g) = s.answer
          · simp only [ha, if_true]
            apply winnerInv_setKey _ _ _ hinv
            constructor
            · have := winnerCount_setKey_le c
                { p with attempts := p.attempts - 1, isWinner := true } s.players
              simp only at this ⊢
              omega
            · intro _
              rfl
          · simp only [ha, if_false]
            apply winnerInv_setKey _ _ _ hinv
            have := winnerCount_setKey_false c
                { p with attempts := p.attempts - 1 } s.players hw
            simp only at this ⊢
            constructor
            · omega
            · intro hpos
              omega
    · simp only [ne_eq, hst, not_false_eq_true, if_true]
      exact hinv

theorem winnerInv_roundTimer (st st1 : Store) (sid : String) (effs : List Effect)
    (hinv : WinnerInv st) (h : roundTimer st sid = Except.ok (st1, effs)) : WinnerInv st1 := by
  unfold roundTimer at h
  cases hl : lookup sid st with
  | none => simp [hl] at h
  | some s =>
    have hs := hinv _ (lookup_mem sid s st hl)
    simp only [hl] at h
    by_cases hst : s.status = Status.in_progress
    · simp only [hst, if_true, Except.ok.injEq, Prod.mk.injEq] at h
      rw [← h.1]
      exact winnerInv_setKey _ _ _ hinv ⟨hs.1, fun _ => rfl⟩
    · simp only [hst, if_false, Except.ok.injEq, Prod.mk.injEq] at h
      rw [← h.1]
      exact hinv

theorem winnerInv_disconnect (st : Store) (c : String) (hinv : WinnerInv st) :
    WinnerInv (disconnect c st).1 := by
  intro e he
  obtain ⟨s, hs, heq, _⟩ := (mem_disconnect c st e).mp he
  have h := hinv _ hs
  have hle := winnerCount_removePlayer_le c s
  rw [heq, removePlayer_status]
  exact ⟨le_trans hle h.1, fun hpos => h.2 (lt_of_lt_of_le hpos hle)⟩

/-- C1 (amended): the winner invariant (at most one player with `isWinner`, and one
only when the status is `ended`) holds in the empty store and is preserved by every
event that is handled without error, provided that a `create-question` or
`start-game` event is applied to a session that has no winner at that point; these
two handlers set the status and leave the `isWinner` flags as they are. -/
theorem winner_invariant_preserved (lower : String → String) :
    WinnerInv [] ∧
    ∀ (st st1 : Store) (e : Event) (effs : List Effect),
      WinnerInv st →
      step lower st e = Except.ok (st1, effs) →
      (∀ sid s, roundReset e = some sid → lookup sid st = some s →
        winnerCount s.players = 0) →
      WinnerInv st1 := by
  refine ⟨fun e he => absurd he (List.not_mem_nil e), ?_⟩
  intro st st1 e effs hinv hstep hreset
  cases e with
  | join c u sid dbUser =>
    simp only [step, Except.ok.injEq] at hstep
    rw [show st1 = (joinSession st c u sid dbUser).1 from by rw [hstep]]
    exact winnerInv_joinSession st c u sid dbUser hinv
  | createQuestion sid q a =>
    simp only [step, Except.ok.injEq] at hstep
    rw [show st1 = (createQuestion lower st sid q a).1 from by rw [hstep]]
    unfold createQuestion
    cases hl : lookup sid st with
    | none => exact hinv
    | some s =>
      have h0 := hreset sid s rfl hl
      apply winnerInv_setKey _ _ _ hinv
      simp only
      constructor
      · omega
      · intro hpos
        omega
  | startGame sid =>
    simp only [step, Except.ok.injEq] at hstep
    rw [show st1 = (startGame st sid).1 from by rw [hstep]]
    unfold startGame
    cases hl : lookup sid st with
    | none => exact hinv
    | some s =>
      have h0 := hreset sid s rfl hl
      apply winnerInv_setKey _ _ _ hinv
      simp only
      constructor
      · omega
      · intro hpos
        omega
  | makeGuess c sid g =>
    simp only [step, Except.ok.injEq] at hstep
    rw [show st1 = (makeGuess lower st c sid g).1 from by rw [hstep]]
    exact winnerInv_makeGuess lower st c sid g hinv
  | timer sid =>
    exact winnerInv_roundTimer st st1 sid effs hinv hstep
  | disconnect c =>
    simp only [step, Except.ok.injEq] at hstep
    rw [show st1 = (disconnect c st).1 from by rw [hstep]]
    exact winnerInv_disconnect st c hinv

/-- Witness for C1 (amended): the winning guess of B in `roundStore` keeps the
invariant. -/
theorem winner_invariant_preserved_witness :
    WinnerInv roundStore ∧
    WinnerInv (makeGuess asciiLower roundStore "B" "s1" "4").1 :=
  have h0 : WinnerInv roundStore := by
    intro e he
    simp only [roundStore, List.mem_singleton] at he
    subst he
    exact ⟨by decide, by decide⟩
  ⟨h0, (winner_invariant_preserved asciiLower).2 roundStore _
    (Event.makeGuess "B" "s1" "4") _ h0 rfl (by intro sid s h; simp [roundReset] at h)⟩

/-- C1 (counterexample): after a round won by B, `create-question` leaves B a winner
while the status is `ready`; after a second round won by A the session has two
winners. Both stores are reached from the empty store. -/
theorem winner_invariant_counterexample :
    (∃ effs, run asciiLower [] wonThenReadyTrace = Except.ok (wonThenReadyStore, effs)) ∧
    (∃ effs, run asciiLower [] twoRoundTrace = Except.ok (twoWinnerStore, effs)) ∧
    ¬ WinnerInv wonThenReadyStore ∧ ¬ WinnerInv twoWinnerStore := by
  refine ⟨⟨_, rfl⟩, ⟨_, rfl⟩, ?_, ?_⟩
  · intro h
    have h1 := (h _ (List.mem_singleton.mpr rfl)).2 (by decide)
    exact absurd h1 (by decide)
  · intro h
    have h1 := (h _ (List.mem_singleton.mpr rfl)).1
    exact absurd h1 (by decide)

/-! ## Answer and status -/

theorem forall_setKey (Q : Session → Prop) (st : Store) (sid : String) (s : Session)
    (hinv : ∀ e ∈ st, Q e.2) (hs : Q s) : ∀ e ∈ setKey sid s st, Q e.2 := by
  intro e he
  rcases mem_setKey sid s st e he with h | h
  · subst h
    exact hs
  · exact hinv e h

theorem answerSetInv_setKey (st : Store) (sid : String) (s : Session)
    (hinv : AnswerSetInv st) (hs : s.answer.isSome = true → s.status ≠ Status.waiting) :
    AnswerSetInv (setKey sid s st) :=
  forall_setKey (fun s => s.answer.isSome = true → s.status ≠ Status.waiting) st sid s hinv hs

theorem run_invariant (lower : String → String) (P : Store → Prop)
    (hstep : ∀ (st st1 : Store) (e : Event) (effs : List Effect),
      P st → step lower st e = Except.ok (st1, effs) → P st1) :
    ∀ (es : List Event) (st st1 : Store) (effs : List Effect),
      P st → run lower st es = Except.ok (st1, effs) → P st1 := by
  intro es
  induction es with
  | nil =>
    intro st st1 effs hP hrun
    simp only [run, Except.ok.injEq, Prod.mk.injEq] at hrun
    rw [← hrun.1]
    exact hP
  | cons e es ih =>
    intro st st1 effs hP hrun
    simp only [run] at hrun
    cases h1 : step lower st e with
    | error err => simp [h1] at hrun
    | ok r =>
      obtain ⟨st2, effs2⟩ := r
      simp only [h1] at hrun
      cases h2 : run lower st2 es with
      | error err => simp [h2] at hrun
      | ok r2 =>
        obtain ⟨st3, effs3⟩ := r2
        simp only [h2, Except.ok.injEq, Prod.mk.injEq] at hrun
        rw [← hrun.1]
        exact ih st2 st3 effs3 (hstep st st2 e effs2 hP h1) h2

theorem answerSetInv_step (lower : String → String) (st st1 : Store) (e : Event)
    (effs : List Effect) (hinv : AnswerSetInv st)
    (hstep : step lower st e = Except.ok (st1, effs)) : AnswerSetInv st1 := by
  cases e with
  | join c u sid dbUser =>
    rw [show st1 = (joinSession st c u sid dbUser).1 from by
      simp only [step, Except.ok.injEq] at hstep; rw [hstep]]
    cases dbUser with
    | none => exact hinv
    | some uid =>
      simp only [joinSession]
      apply answerSetInv_setKey _ _ _ hinv
      cases hl : lookup sid st with
      | none => simp [newSession]
      | some s => simpa using hinv _ (lookup_mem sid s st hl)
  | createQuestion sid q a =>
    rw [show st1 = (createQuestion lower st sid q a).1 from by
      simp only [step, Except.ok.injEq] at hstep; rw [hstep]]
    unfold createQuestion
    cases hl : lookup sid st with
    | none => exact hinv
    | some s =>
      apply answerSetInv_setKey _ _ _ hinv
      simp
  | startGame sid =>
    rw [show st1 = (startGame st sid).1 from by
      simp only [step, Except.ok.injEq] at hstep; rw [hstep]]
    unfold startGame
    cases hl : lookup sid st with
    | none => exact hinv
    | some s =>
      apply answerSetInv_setKey _ _ _ hinv
      simp
  | makeGuess c sid g =>
    rw [show st1 = (makeGuess lower st c sid g).1 from by
      simp only [step, Except.ok.injEq] at hstep; rw [hstep]]
    unfold makeGuess
    cases hl : lookup sid st with
    | none => exact hinv
    | some s =>
      have hs := hinv _ (lookup_mem sid s st hl)
      simp only
      split
      · exact hinv
      · cases hp : lookup c s.players with
        | none => exact hinv
        | some p =>
          simp only
          split
          · exact hinv
          · split
            · apply answerSetInv_setKey _ _ _ hinv
              simp
            · apply answerSetInv_setKey _ _ _ hinv
              exact hs
  | timer sid =>
    simp only [step] at hstep
    unfold roundTimer at hstep
    cases hl : lookup sid st with
    | none => simp [hl] at hstep
    | some s =>
      simp only [hl] at hstep
      split at hstep
      · simp only [Except.ok.injEq, Prod.mk.injEq] at hstep
        rw [← hstep.1]
        apply answerSetInv_setKey _ _ _ hinv
        simp
      · simp only [Except.ok.injEq, Prod.mk.injEq] at hstep
        rw [← hstep.1]
        exact hinv
  | disconnect c =>
    rw [show st1 = (disconnect c st).1 from by
      simp only [step, Except.ok.injEq] at hstep; rw [hstep]]
    intro e he
    obtain ⟨s, hs, heq, _⟩ := (mem_disconnect c st e).mp he
    rw [heq, removePlayer_status, removePlayer_answer]
    exact hinv _ hs

/-- C2 (amended): in every store reachable from the empty store, a session whose
answer is set has a status other than `waiting` (equivalently, a `waiting` session
has no answer). The converse is not an invariant, since `start-game` does not
require a question. -/
theorem answer_set_only_after_waiting (lower : String → String) (st : Store)
    (hreach : Reachable lower st) : AnswerSetInv st := by
  obtain ⟨es, effs, hrun⟩ := hreach
  exact run_invariant lower AnswerSetInv (answerSetInv_step lower) es [] st effs
    (fun e he => absurd he (List.not_mem_nil e)) hrun

/-- Witness for C2 (amended): the store after a won round and a new question. -/
theorem answer_set_only_after_waiting_witness :
    Reachable asciiLower wonThenReadyStore ∧ AnswerSetInv wonThenReadyStore :=
  have h : Reachable asciiLower wonThenReadyStore := ⟨wonThenReadyTrace, _, rfl⟩
  ⟨h, answer_set_only_after_waiting asciiLower wonThenReadyStore h⟩

/-- C2 (counterexample): after one join and `start-game` the session is
`in_progress` and has no answer. -/
theorem answer_status_counterexample :
    (∃ effs, run asciiLower [] startedUnsetTrace = Except.ok (startedUnsetStore, effs)) ∧
    ¬ AnswerStatusInv startedUnsetStore := by
  refine ⟨⟨_, rfl⟩, ?_⟩
  intro h
  have h1 := (h _ (List.mem_singleton.mpr rfl)).2 (by decide)
  exact absurd h1 (by decide)

/-! ## The guess handler, by cases -/

theorem makeGuess_win (lower : String → String) (st : Store) (c sid g : String)
    (s : Session) (p : Player) (hs : lookup sid st = some s)
    (hst : s.status = Status.in_progress) (hp : lookup c s.players = some p)
    (hatt : p.attempts ≠ 0) (hw : p.isWinner = false) (hg : some (lower g) = s.answer) :
    makeGuess lower st c sid g =
      (setKey sid
          { s with
            status := Status.ended,
            players := setKey c { p with attempts := p.attempts - 1, isWinner := true }
              s.players } st,
        [Effect.broadcast sid (Payload.gameEnded (some p.username) s.answer),
         Effect.addScore p.userId 10]) := by
  simp [makeGuess, hs, hst, hp, hatt, hw, hg]

theorem makeGuess_wrong (lower : String → String) (st : Store) (c sid g : String)
    (s : Session) (p : Player) (hs : lookup sid st = some s)
    (hst : s.status = Status.in_progress) (hp : lookup c s.players = some p)
    (hatt : p.attempts ≠ 0) (hw : p.isWinner = false) (hg : some (lower g) ≠ s.answer) :
    makeGuess lower st c sid g =
      (setKey sid
          { s with players := setKey c { p with attempts := p.attempts - 1 } s.players } st,
        [Effect.send c (Payload.wrongGuess (p.attempts - 1))]) := by
  simp [makeGuess, hs, hst, hp, hatt, hw, hg]

theorem makeGuess_dropped (lower : String → String) (st : Store) (c sid g : String)
    (h : lookup sid st = none ∨
      ∃ s, lookup sid st = some s ∧
        (s.status ≠ Status.in_progress ∨ lookup c s.players = none ∨
          ∃ p, lookup c s.players = some p ∧ (p.attempts = 0 ∨ p.isWinner = true))) :
    makeGuess lower st c sid g = (st, []) := by
  unfold makeGuess
  rcases h with h | ⟨s, hs, h⟩
  · simp [h]
  · simp only [hs]
    by_cases hst : s.status = Status.in_progress
    · simp only [hst, ne_eq, not_true_eq_false, if_false]
      rcases h with h | h | ⟨p, hp, h⟩
      · exact absurd hst h
      · simp [h]
      · simp only [hp]
        rw [if_pos h]
    · simp [hst]

/-! ## The round timer -/

/-- C3: for a store containing session `sid`, the timer callback (a) on an
`in_progress` session returns without error, sets the status to `ended`, leaves the
rest of the session, every other session and the key order unchanged, and emits one
broadcast `game-ended` with winner `null` and the session's answer; (b) on any other
status returns the store unchanged with no effect; (c) after a winning guess has
ended the round it is such a no-op, the status stays `ended` and the winner keeps
`isWinner = true`. -/
theorem timer_tie_break (lower : String → String) (st : Store) (sid : String) (s : Session)
    (hs : lookup sid st = some s) :
    (s.status = Status.in_progress →
      ∃ st1, roundTimer st sid =
          Except.ok (st1, [Effect.broadcast sid (Payload.gameEnded none s.answer)]) ∧
        lookup sid st1 = some { s with status := Status.ended } ∧
        (∀ sid1, sid1 ≠ sid → lookup sid1 st1 = lookup sid1 st) ∧
        st1.map Prod.fst = st.map Prod.fst) ∧
    (s.status ≠ Status.in_progress → roundTimer st sid = Except.ok (st, [])) ∧
    (∀ (c g : String) (p : Player),
      s.status = Status.in_progress → lookup c s.players = some p → p.attempts ≠ 0 →
      p.isWinner = false → some (lower g) = s.answer →
      roundTimer (makeGuess lower st c sid g).1 sid =
          Except.ok ((makeGuess lower st c sid g).1, []) ∧
        ∃ s1 p1, lookup sid (makeGuess lower st c sid g).1 = some s1 ∧
          s1.status = Status.ended ∧ lookup c s1.players = some p1 ∧ p1.isWinner = true) := by
  refine ⟨?_, ?_, ?_⟩
  · intro hst
    refine ⟨setKey sid { s with status := Status.ended } st, ?_, lookup_setKey_self _ _ _,
      fun sid1 hne => lookup_setKey_ne _ _ _ _ hne, keys_setKey _ _ s _ hs⟩
    simp [roundTimer, hs, hst]
  · intro hst
    simp [roundTimer, hs, hst]
  · intro c g p hst hp hatt hw hg
    rw [makeGuess_win lower st c sid g s p hs hst hp hatt hw hg]
    refine ⟨?_, _, _, lookup_setKey_self _ _ _, rfl, lookup_setKey_self _ _ _, rfl⟩
    simp [roundTimer, lookup_setKey_self]

/-- Witness for C3: in `roundStore` the timer ends the round when nobody has won,
and is a no-op after B has won with the guess `4`. -/
theorem timer_tie_break_witness :
    lookup "s1" roundStore = some roundSession ∧
    roundTimer (makeGuess asciiLower roundStore "B" "s1" "4").1 "s1" =
      Except.ok ((makeGuess asciiLower roundStore "B" "s1" "4").1, []) :=
  ⟨rfl, ((timer_tie_break asciiLower roundStore "s1" roundSession rfl).2.2 "B" "4"
    { userId := 2, username := "bob", attempts := 3, isWinner := false }
    rfl rfl (by decide) rfl rfl).1⟩

/-- C4 (failing input): a player joins `s1`, starts the round and disconnects, which
deletes the session; the pending timer callback then throws a `TypeError` instead of
returning. -/
theorem timer_after_session_deleted_throws :
    (∃ effs, run asciiLower [] abandonedRoundTrace = Except.ok ([], effs)) ∧
    Effect.setTimeout "s1" 60000 ∈ (startGame
      (joinSession [] "A" "alice" "s1" (some 1)).1 "s1").2 ∧
    lookup "s1" ([] : Store) = none ∧
    roundTimer [] "s1" = Except.error Err.typeError ∧
    run asciiLower [] (abandonedRoundTrace ++ [Event.timer "s1"]) =
      Except.error Err.typeError :=
  ⟨⟨_, rfl⟩, by decide, rfl, rfl, rfl⟩

/-! ## Membership of connections in sessions -/

theorem mem_keys_setKey {α : Type} (k : String) (v : α) (l : List (String × α)) (x : String)
    (hx : x ∈ (setKey k v l).map Prod.fst) : x = k ∨ x ∈ l.map Prod.fst := by
  obtain ⟨e, he, rfl⟩ := List.mem_map.mp hx
  rcases mem_setKey k v l e he with h | h
  · exact Or.inl (by rw [h])
  · exact Or.inr (List.mem_map.mpr ⟨e, h, rfl⟩)

theorem keysDistinct_setKey {α : Type} (k : String) (v : α) (l : List (String × α))
    (h : KeysDistinct l) : KeysDistinct (setKey k v l) := by
  unfold KeysDistinct at h ⊢
  induction l with
  | nil => simp [setKey]
  | cons hd tl ih =>
    obtain ⟨k0, v0⟩ := hd
    rw [List.map_cons, List.nodup_cons] at h
    by_cases hk : k0 = k
    · subst hk
      simpa [setKey] using h
    · simp only [setKey, hk, if_false, List.map_cons, List.nodup_cons]
      refine ⟨fun hmem => ?_, ih h.2⟩
      rcases mem_keys_setKey k v tl k0 hmem with h1 | h1
      · exact hk h1
      · exact h.1 h1

theorem keysDistinct_deleteKey {α : Type} (k : String) (l : List (String × α))
    (h : KeysDistinct l) : KeysDistinct (deleteKey k l) :=
  List.Nodup.sublist (List.Sublist.map Prod.fst (List.filter_sublist l)) h

theorem keysDistinct_removePlayer (c : String) (s : Session) (h : KeysDistinct s.players) :
    KeysDistinct (removePlayer c s).players := by
  unfold removePlayer
  split
  · exact keysDistinct_deleteKey c s.players h
  · exact h

theorem keys_disconnect_sublist (c : String) (st : Store) :
    List.Sublist ((disconnect c st).1.map Prod.fst) (st.map Prod.fst) := by
  induction st with
  | nil => simp [disconnect]
  | cons hd tl ih =>
    obtain ⟨sid, s⟩ := hd
    simp only [disconnect]
    split
    · exact List.Sublist.cons _ ih
    · exact List.Sublist.cons₂ _ ih

theorem wellFormed_setKey (st : Store) (sid : String) (s : Session) (h : WellFormed st)
    (hs : KeysDistinct s.players) : WellFormed (setKey sid s st) :=
  ⟨keysDistinct_setKey sid s st h.1,
    forall_setKey (fun s => KeysDistinct s.players) st sid s h.2 hs⟩

theorem wellFormed_step (lower : String → String) (st st1 : Store) (e : Event)
    (effs : List Effect) (hinv : WellFormed st)
    (hstep : step lower st e = Except.ok (st1, effs)) : WellFormed st1 := by
  cases e with
  | join c u sid dbUser =>
    rw [show st1 = (joinSession st c u sid dbUser).1 from by
      simp only [step, Except.ok.injEq] at hstep; rw [hstep]]
    cases dbUser with
    | none => exact hinv
    | some uid =>
      simp only [joinSession]
      apply wellFormed_setKey _ _ _ hinv
      apply keysDistinct_setKey
      cases hl : lookup sid st with
      | none => simp [newSession, KeysDistinct]
      | some s => simpa using hinv.2 _ (lookup_mem sid s st hl)
  | createQuestion sid q a =>
    rw [show st1 = (createQuestion lower st sid q a).1 from by
      simp only [step, Except.ok.injEq] at hstep; rw [hstep]]
    unfold createQuestion
    cases hl : lookup sid st with
    | none => exact hinv
    | some s => exact wellFormed_setKey _ _ _ hinv (hinv.2 _ (lookup_mem sid s st hl))
  | startGame sid =>
    rw [show st1 = (startGame st sid).1 from by
      simp only [step, Except.ok.injEq] at hstep; rw [hstep]]
    unfold startGame
    cases hl : lookup sid st with
    | none => exact hinv
    | some s => exact wellFormed_setKey _ _ _ hinv (hinv.2 _ (lookup_mem sid s st hl))
  | makeGuess c sid g =>
    rw [show st1 = (makeGuess lower st c sid g).1 from by
      simp only [step, Except.ok.injEq] at hstep; rw [hstep]]
    unfold makeGuess
    cases hl : lookup sid st with
    | none => exact hinv
    | some s =>
      have hs := hinv.2 _ (lookup_mem sid s st hl)
      simp only
      split
      · exact hinv
      · cases hp : lookup c s.players with
        | none => exact hinv
        | some p =>
          simp only
          split
          · exact hinv
          · split
            · exact wellFormed_setKey _ _ _ hinv (keysDistinct_setKey _ _ _ hs)
            · exact wellFormed_setKey _ _ _ hinv (keysDistinct_setKey _ _ _ hs)
  | timer sid =>
    simp only [step] at hstep
    unfold roundTimer at hstep
    cases hl : lookup sid st with
    | none => simp [hl] at hstep
    | some s =>
      simp only [hl] at hstep
      split at hstep
      · simp only [Except.ok.injEq, Prod.mk.injEq] at hstep
        rw [← hstep.1]
        exact wellFormed_setKey _ _ _ hinv (hinv.2 _ (lookup_mem sid s st hl))
      · simp only [Except.ok.injEq, Prod.mk.injEq] at hstep
        rw [← hstep.1]
        exact hinv
  | disconnect c =>
    rw [show st1 = (disconnect c st).1 from by
      simp only [step, Except.ok.injEq] at hstep; rw [hstep]]
    refine ⟨List.Nodup.sublist (keys_disconnect_sublist c st) hinv.1, ?_⟩
    intro e he
    obtain ⟨s, hs, heq, _⟩ := (mem_disconnect c st e).mp he
    rw [heq]
    exact keysDistinct_removePlayer c s (hinv.2 _ hs)

theorem reachable_wellFormed (lower : String → String) (st : Store)
    (hreach : Reachable lower st) : WellFormed st := by
  obtain ⟨es, effs, hrun⟩ := hreach
  refine run_invariant lower WellFormed (wellFormed_step lower) es [] st effs ?_ hrun
  exact ⟨List.nodup_nil, fun e he => absurd he (List.not_mem_nil e)⟩

/-- C5 (counterexample): connection A joins `s1` and then `s2`; afterwards A is the
key of a Player in both sessions. -/
theorem single_membership_counterexample :
    (∃ effs, run asciiLower [] twoSessionTrace = Except.ok (twoSessionStore, effs)) ∧
    ¬ SingleMembership twoSessionStore := by
  refine ⟨⟨_, rfl⟩, ?_⟩
  intro h
  have h1 := h "A" ("s1", _) (List.mem_cons_self _ _) ("s2", _)
    (List.mem_cons_of_mem _ (List.mem_cons_self _ _)) rfl rfl
  exact absurd h1 (by decide)

/-! ## Disconnect -/

/-- C6 (amended): `disconnect` by `c` issues one `session-update` broadcast, carrying
the snapshot after the removal, for every session that contained a Player keyed `c`,
in store order, and none for the other sessions. This includes a session whose last
player was `c`: its snapshot has no players, and the session is then deleted. The
store afterwards consists of the sessions, with `c` removed, that still have a
player. -/
theorem disconnect_effects (c : String) (st : Store) :
    (disconnect c st).2 =
      (st.filter (fun e => (lookup c e.2.players).isSome)).map
        (fun e => Effect.broadcast e.1 (Payload.sessionUpdate (removePlayer c e.2))) ∧
    (disconnect c st).1 =
      (st.map (fun e => (e.1, removePlayer c e.2))).filter
        (fun e => decide (e.2.players ≠ [])) := by
  induction st with
  | nil => simp [disconnect]
  | cons hd tl ih =>
    obtain ⟨sid, s⟩ := hd
    obtain ⟨ih1, ih2⟩ := ih
    simp only [disconnect]
    by_cases hemp : (removePlayer c s).players = []
    · have hlen : (removePlayer c s).players.length = 0 := by simp [hemp]
      simp only [hlen, if_true]
      refine ⟨?_, ?_⟩
      · cases hhit : (lookup c s.players).isSome <;>
          simp [List.filter_cons, hhit, ih1]
      · simp [List.filter_cons, hemp, ih2]
    · have hlen : ¬ (removePlayer c s).players.length = 0 := by
        simpa [List.length_eq_zero] using hemp
      simp only [hlen, if_false]
      refine ⟨?_, ?_⟩
      · cases hhit : (lookup c s.players).isSome <;>
          simp [List.filter_cons, hhit, ih1]
      · simp [List.filter_cons, hemp, ih2]

/-- C6 (counterexample): A is the only player of `s1`; on disconnect the handler
broadcasts a `session-update` for `s1` with the emptied session and then deletes it. -/
theorem disconnect_last_player_counterexample :
    (∃ effs, run asciiLower [] [Event.join "A" "alice" "s1" (some 1)] =
      Except.ok (loneStore, effs)) ∧
    lookup "s1" loneStore = some
      { players := [("A", newPlayer 1 "alice")], status := Status.waiting,
        question := none, answer := none } ∧
    disconnect "A" loneStore =
      ([], [Effect.broadcast "s1" (Payload.sessionUpdate
        { players := [], status := Status.waiting, question := none, answer := none })]) :=
  ⟨⟨_, rfl⟩, rfl, rfl⟩

/-! ## Guesses -/

/-- C7: in a store where session `sid` is `in_progress` and connection `c` has a
Player `p` in it with `attempts > 0` and `isWinner = false`, a guess whose lowercase
form equals the session's answer sets the status to `ended`, sets `p.isWinner`,
decreases `p.attempts` by one, leaves every other player, the question, the answer,
every other session and the key orders unchanged, and emits exactly the broadcast
`game-ended` with `p.username` and the answer followed by `add_score(p.userId, 10)`. -/
theorem winning_guess (lower : String → String) (st : Store) (c sid g : String)
    (s : Session) (p : Player) (hs : lookup sid st = some s)
    (hst : s.status = Status.in_progress) (hp : lookup c s.players = some p)
    (hatt : 0 < p.attempts) (hw : p.isWinner = false) (hg : some (lower g) = s.answer) :
    ∃ st1 s1,
      makeGuess lower st c sid g =
        (st1, [Effect.broadcast sid (Payload.gameEnded (some p.username) s.answer),
               Effect.addScore p.userId 10]) ∧
      lookup sid st1 = some s1 ∧
      s1.status = Status.ended ∧ s1.question = s.question ∧ s1.answer = s.answer ∧
      lookup c s1.players = some { p with attempts := p.attempts - 1, isWinner := true } ∧
      (∀ c1, c1 ≠ c → lookup c1 s1.players = lookup c1 s.players) ∧
      s1.players.map Prod.fst = s.players.map Prod.fst ∧
      (∀ sid1, sid1 ≠ sid → lookup sid1 st1 = lookup sid1 st) ∧
      st1.map Prod.fst = st.map Prod.fst := by
  have hne : p.attempts ≠ 0 := by omega
  exact ⟨_, _, makeGuess_win lower st c sid g s p hs hst hp hne hw hg,
    lookup_setKey_self _ _ _, rfl, rfl, rfl, lookup_setKey_self _ _ _,
    fun c1 h => lookup_setKey_ne _ _ _ _ h, keys_setKey _ _ p _ hp,
    fun sid1 h => lookup_setKey_ne _ _ _ _ h, keys_setKey _ _ s _ hs⟩

/-- Witness for C7: in `roundStore`, B guesses `4`. -/
theorem winning_guess_witness :
    lookup "s1" roundStore = some roundSession ∧
    ∃ st1 s1,
      makeGuess asciiLower roundStore "B" "s1" "4" =
        (st1, [Effect.broadcast "s1" (Payload.gameEnded (some "bob") (some "4")),
               Effect.addScore 2 10]) ∧
      lookup "s1" st1 = some s1 ∧ s1.status = Status.ended ∧
      lookup "B" s1.players =
        some { userId := 2, username := "bob", attempts := 2, isWinner := true } :=
  have h := winning_guess asciiLower roundStore "B" "s1" "4" roundSession
    { userId := 2, username := "bob", attempts := 3, isWinner := false }
    rfl rfl rfl (by decide) rfl rfl
  ⟨rfl, by
    obtain ⟨st1, s1, h1, h2, h3, _, _, h6, _⟩ := h
    exact ⟨st1, s1, h1, h2, h3, h6⟩⟩

/-- C8: in a store where session `sid` is `in_progress` and connection `c` has a
Player `p` in it with `attempts = n > 0` and `isWinner = false`, a guess whose
lowercase form differs from the session's answer leaves the status `in_progress`,
sets `p.attempts` to `n - 1` with `isWinner` still false, changes nothing else, and
emits exactly one effect: the direct send of `wrong-guess` with `attemptsLeft = n - 1`
to `c`. -/
theorem wrong_guess (lower : String → String) (st : Store) (c sid g : String)
    (s : Session) (p : Player) (n : Int) (hs : lookup sid st = some s)
    (hst : s.status = Status.in_progress) (hp : lookup c s.players = some p)
    (hn : p.attempts = n) (hatt : 0 < n) (hw : p.isWinner = false)
    (hg : some (lower g) ≠ s.answer) :
    ∃ st1 s1,
      makeGuess lower st c sid g = (st1, [Effect.send c (Payload.wrongGuess (n - 1))]) ∧
      lookup sid st1 = some s1 ∧
      s1.status = Status.in_progress ∧ s1.question = s.question ∧ s1.answer = s.answer ∧
      lookup c s1.players = some { p with attempts := n - 1, isWinner := false } ∧
      (∀ c1, c1 ≠ c → lookup c1 s1.players = lookup c1 s.players) ∧
      s1.players.map Prod.fst = s.players.map Prod.fst ∧
      (∀ sid1, sid1 ≠ sid → lookup sid1 st1 = lookup sid1 st) ∧
      st1.map Prod.fst = st.map Prod.fst := by
  have hne : p.attempts ≠ 0 := by omega
  subst hn
  refine ⟨_, _, makeGuess_wrong lower st c sid g s p hs hst hp hne hw hg,
    lookup_setKey_self _ _ _, hst, rfl, rfl, ?_,
    fun c1 h => lookup_setKey_ne _ _ _ _ h, keys_setKey _ _ p _ hp,
    fun sid1 h => lookup_setKey_ne _ _ _ _ h, keys_setKey _ _ s _ hs⟩
  rw [lookup_setKey_self, ← hw]

/-- Witness for C8: A and B join `s1`, the question `2+2?` with answer `4` is set and
the round started; B guessing `5` receives `wrong-guess` with `attemptsLeft = 2`. -/
theorem wrong_guess_witness :
    (∃ effs, run asciiLower [] roundTrace = Except.ok (roundStore, effs)) ∧
    ∃ st1 s1,
      makeGuess asciiLower roundStore "B" "s1" "5" =
        (st1, [Effect.send "B" (Payload.wrongGuess 2)]) ∧
      lookup "s1" st1 = some s1 ∧ s1.status = Status.in_progress ∧
      lookup "B" s1.players =
        some { userId := 2, username := "bob", attempts := 2, isWinner := false } :=
  have h := wrong_guess asciiLower roundStore "B" "s1" "5" roundSession
    { userId := 2, username := "bob", attempts := 3, isWinner := false } 3
    rfl rfl rfl rfl (by decide) rfl (by decide)
  ⟨⟨_, rfl⟩, by
    obtain ⟨st1, s1, h1, h2, h3, _, _, h6, _⟩ := h
    exact ⟨st1, s1, h1, h2, h3, h6⟩⟩

/-! ## Case-insensitive matching, end to end -/

theorem createQuestion_some (lower : String → String) (st : Store) (sid q a : String)
    (s : Session) (hs : lookup sid st = some s) :
    createQuestion lower st sid q a =
      (setKey sid
          { s with question := some q, answer := some (lower a), status := Status.ready } st,
        [Effect.broadcast sid (Payload.questionCreated q)]) := by
  simp [createQuestion, hs]

theorem startGame_some (st : Store) (sid : String) (s : Session)
    (hs : lookup sid st = some s) :
    startGame st sid =
      (setKey sid { s with status := Status.in_progress } st,
        [Effect.broadcast sid (Payload.gameStarted s.question),
         Effect.setTimeout sid 60000]) := by
  simp [startGame, hs]

theorem run_three (lower : String → String) (st st1 st2 st3 : Store) (e1 e2 e3 : Event)
    (f1 f2 f3 : List Effect) (h1 : step lower st e1 = Except.ok (st1, f1))
    (h2 : step lower st1 e2 = Except.ok (st2, f2))
    (h3 : step lower st2 e3 = Except.ok (st3, f3)) :
    run lower st [e1, e2, e3] = Except.ok (st3, f1 ++ (f2 ++ (f3 ++ []))) := by
  simp only [run, h1, h2, h3]

/-- C10: on an existing session `sid` in which connection `c` has a Player `p` with
`attempts > 0` and `isWinner = false`, the sequence `create-question(sid, q, a)`,
`start-game(sid)`, `make-guess(sid, g)` by `c` runs without error and: if
`lower g = lower a` the round ends (`status = ended`) with `c`'s Player as winner and
`game-ended` is broadcast with `p.username`; if `lower g ≠ lower a` the status stays
`in_progress` and `c`'s Player is not a winner. -/
theorem case_insensitive_round (lower : String → String) (st : Store)
    (c sid q a g : String) (s : Session) (p : Player)
    (hs : lookup sid st = some s) (hp : lookup c s.players = some p)
    (hatt : 0 < p.attempts) (hw : p.isWinner = false) :
    ∃ st3 effs s3,
      run lower st [Event.createQuestion sid q a, Event.startGame sid,
        Event.makeGuess c sid g] = Except.ok (st3, effs) ∧
      lookup sid st3 = some s3 ∧
      s3.question = some q ∧ s3.answer = some (lower a) ∧
      (lower g = lower a →
        s3.status = Status.ended ∧
        lookup c s3.players = some { p with attempts := p.attempts - 1, isWinner := true } ∧
        effs = [Effect.broadcast sid (Payload.questionCreated q),
                Effect.broadcast sid (Payload.gameStarted (some q)),
                Effect.setTimeout sid 60000,
                Effect.broadcast sid (Payload.gameEnded (some p.username) (some (lower a))),
                Effect.addScore p.userId 10]) ∧
      (lower g ≠ lower a →
        s3.status = Status.in_progress ∧
        lookup c s3.players = some { p with attempts := p.attempts - 1, isWinner := false } ∧
        effs = [Effect.broadcast sid (Payload.questionCreated q),
                Effect.broadcast sid (Payload.gameStarted (some q)),
                Effect.setTimeout sid 60000,
                Effect.send c (Payload.wrongGuess (p.attempts - 1))]) := by
  have hne : p.attempts ≠ 0 := by omega
  have h1 : step lower st (Event.createQuestion sid q a) = Except.ok _ :=
    congrArg Except.ok (createQuestion_some lower st sid q a s hs)
  have h2 : step lower _ (Event.startGame sid) = Except.ok _ :=
    congrArg Except.ok (startGame_some _ sid _ (lookup_setKey_self sid
      { s with question := some q, answer := some (lower a), status := Status.ready } st))
  by_cases hg : lower g = lower a
  · have h3 : step lower _ (Event.makeGuess c sid g) = Except.ok _ :=
      congrArg Except.ok (makeGuess_win lower _ c sid g _ p (lookup_setKey_self sid
        { s with question := some q, answer := some (lower a), status := Status.in_progress }
        (setKey sid
          { s with question := some q, answer := some (lower a), status := Status.ready } st))
        rfl hp hne hw (by simp [hg]))
    exact ⟨_, _, _, run_three lower _ _ _ _ _ _ _ _ _ _ h1 h2 h3, lookup_setKey_self _ _ _,
      rfl, rfl, fun _ => ⟨rfl, lookup_setKey_self _ _ _, rfl⟩, fun h => absurd hg h⟩
  · have h3 : step lower _ (Event.makeGuess c sid g) = Except.ok _ :=
      congrArg Except.ok (makeGuess_wrong lower _ c sid g _ p (lookup_setKey_self sid
        { s with question := some q, answer := some (lower a), status := Status.in_progress }
        (setKey sid
          { s with question := some q, answer := some (lower a), status := Status.ready } st))
        rfl hp hne hw (by simp [hg]))
    refine ⟨_, _, _, run_three lower _ _ _ _ _ _ _ _ _ _ h1 h2 h3, lookup_setKey_self _ _ _,
      rfl, rfl, fun h => absurd h hg, fun _ => ⟨rfl, ?_, rfl⟩⟩
    rw [lookup_setKey_self, ← hw]

/-- Witness for C10: with the answer `Paris`, the guess `PARIS` ends the round with
the guessing player as winner. -/
theorem case_insensitive_round_witness :
    asciiLower "PARIS" = asciiLower "Paris" ∧
    ∃ st3 effs s3,
      run asciiLower loneStore [Event.createQuestion "s1" "Capital of France?" "Paris",
        Event.startGame "s1", Event.makeGuess "A" "s1" "PARIS"] = Except.ok (st3, effs) ∧
      lookup "s1" st3 = some s3 ∧ s3.answer = some "paris" ∧ s3.status = Status.ended ∧
      lookup "A" s3.players =
        some { userId := 1, username := "alice", attempts := 2, isWinner := true } :=
  have h := case_insensitive_round asciiLower loneStore "A" "s1" "Capital of France?"
    "Paris" "PARIS"
    { players := [("A", newPlayer 1 "alice")], status := Status.waiting,
      question := none, answer := none }
    (newPlayer 1 "alice") rfl rfl (by decide) rfl
  ⟨by decide, by
    obtain ⟨st3, effs, s3, h1, h2, _, h4, h5, _⟩ := h
    obtain ⟨h6, h7, _⟩ := h5 (by decide)
    exact ⟨st3, effs, s3, h1, h2, h4, h6, h7⟩⟩

/-! ## Attempts -/

theorem attemptsInv_setKey (st : Store) (sid : String) (s : Session) (hinv : AttemptsInv st)
    (hs : ∀ pe ∈ s.players, 0 ≤ pe.2.attempts ∧ pe.2.attempts ≤ 3) :
    AttemptsInv (setKey sid s st) :=
  forall_setKey (fun s => ∀ pe ∈ s.players, 0 ≤ pe.2.attempts ∧ pe.2.attempts ≤ 3)
    st sid s hinv hs

theorem attempts_setKey (c : String) (p : Player) (l : List (String × Player))
    (hl : ∀ pe ∈ l, 0 ≤ pe.2.attempts ∧ pe.2.attempts ≤ 3)
    (hp : 0 ≤ p.attempts ∧ p.attempts ≤ 3) :
    ∀ pe ∈ setKey c p l, 0 ≤ pe.2.attempts ∧ pe.2.attempts ≤ 3 := by
  intro pe hpe
  rcases mem_setKey c p l pe hpe with h | h
  · subst h
    exact hp
  · exact hl pe h

theorem mem_deleteKey {α : Type} (k : String) (l : List (String × α)) (x : String × α)
    (hx : x ∈ deleteKey k l) : x ∈ l :=
  (List.mem_filter.mp hx).1

theorem mem_removePlayer (c : String) (s : Session) (pe : String × Player)
    (h : pe ∈ (removePlayer c s).players) : pe ∈ s.players := by
  unfold removePlayer at h
  split at h
  · exact mem_deleteKey c s.players pe h
  · exact h

theorem attemptsInv_step (lower : String → String) (st st1 : Store) (e : Event)
    (effs : List Effect) (hinv : AttemptsInv st)
    (hstep : step lower st e = Except.ok (st1, effs)) : AttemptsInv st1 := by
  cases e with
  | join c u sid dbUser =>
    rw [show st1 = (joinSession st c u sid dbUser).1 from by
      simp only [step, Except.ok.injEq] at hstep; rw [hstep]]
    cases dbUser with
    | none => exact hinv
    | some uid =>
      simp only [joinSession]
      apply attemptsInv_setKey _ _ _ hinv
      apply attempts_setKey
      · cases hl : lookup sid st with
        | none => simp [newSession]
        | some s => simpa using hinv _ (lookup_mem sid s st hl)
      · simp [newPlayer]
  | createQuestion sid q a =>
    rw [show st1 = (createQuestion lower st sid q a).1 from by
      simp only [step, Except.ok.injEq] at hstep; rw [hstep]]
    unfold createQuestion
    cases hl : lookup sid st with
    | none => exact hinv
    | some s => exact attemptsInv_setKey _ _ _ hinv (hinv _ (lookup_mem sid s st hl))
  | startGame sid =>
    rw [show st1 = (startGame st sid).1 from by
      simp only [step, Except.ok.injEq] at hstep; rw [hstep]]
    unfold startGame
    cases hl : lookup sid st with
    | none => exact hinv
    | some s => exact attemptsInv_setKey _ _ _ hinv (hinv _ (lookup_mem sid s st hl))
  | makeGuess c sid g =>
    rw [show st1 = (makeGuess lower st c sid g).1 from by
      simp only [step, Except.ok.injEq] at hstep; rw [hstep]]
    unfold makeGuess
    cases hl : lookup sid st with
    | none => exact hinv
    | some s =>
      have hs := hinv _ (lookup_mem sid s st hl)
      simp only
      split
      · exact hinv
      · cases hp : lookup c s.players with
        | none => exact hinv
        | some p =>
          have hpr := hs _ (lookup_mem c p s.players hp)
          simp only
          by_cases hg : p.attempts = 0 ∨ p.isWinner = true
          · rw [if_pos hg]
            exact hinv
          · rw [if_neg hg]
            have h0 : p.attempts ≠ 0 := fun h => hg (Or.inl h)
            have hdec : 0 ≤ p.attempts - 1 ∧ p.attempts - 1 ≤ 3 := by
              simp only at hpr
              omega
            split
            · exact attemptsInv_setKey _ _ _ hinv (attempts_setKey _ _ _ hs hdec)
            · exact attemptsInv_setKey _ _ _ hinv (attempts_setKey _ _ _ hs hdec)
  | timer sid =>
    simp only [step] at hstep
    unfold roundTimer at hstep
    cases hl : lookup sid st with
    | none => simp [hl] at hstep
    | some s =>
      simp only [hl] at hstep
      split at hstep
      · simp only [Except.ok.injEq, Prod.mk.injEq] at hstep
        rw [← hstep.1]
        exact attemptsInv_setKey _ _ _ hinv (hinv _ (lookup_mem sid s st hl))
      · simp only [Except.ok.injEq, Prod.mk.injEq] at hstep
        rw [← hstep.1]
        exact hinv
  | disconnect c =>
    rw [show st1 = (disconnect c st).1 from by
      simp only [step, Except.ok.injEq] at hstep; rw [hstep]]
    intro e he pe hpe
    obtain ⟨s, hs, heq, _⟩ := (mem_disconnect c st e).mp he
    rw [heq] at hpe
    exact hinv _ hs pe (mem_removePlayer c s pe hpe)

/-- C11: in every store reachable from the empty store by a finite sequence of
events, the `attempts` of every Player of every session is an integer between 0 and
3 (never negative, never above the initial value 3). -/
theorem attempts_range (lower : String → String) (st : Store)
    (hreach : Reachable lower st) : AttemptsInv st := by
  obtain ⟨es, effs, hrun⟩ := hreach
  exact run_invariant lower AttemptsInv (attemptsInv_step lower) es [] st effs
    (fun e he => absurd he (List.not_mem_nil e)) hrun

/-- Witness for C11: the store after B has used one attempt. -/
theorem attempts_range_witness :
    Reachable asciiLower guessedStore ∧ AttemptsInv guessedStore :=
  have h : Reachable asciiLower guessedStore :=
    ⟨roundTrace ++ [Event.makeGuess "B" "s1" "5"], _, rfl⟩
  ⟨h, attempts_range asciiLower guessedStore h⟩

theorem lookup_of_mem {α : Type} (k : String) (v : α) (l : List (String × α))
    (hk : KeysDistinct l) (h : (k, v) ∈ l) : lookup k l = some v := by
  unfold KeysDistinct at hk
  induction l with
  | nil => simp at h
  | cons hd tl ih =>
    obtain ⟨k0, v0⟩ := hd
    rw [List.map_cons, List.nodup_cons] at hk
    rcases List.mem_cons.mp h with h1 | h1
    · injection h1 with h2 h3
      subst h2 h3
      simp [lookup]
    · have hne : k0 ≠ k := by
        intro hkk
        subst hkk
        exact hk.1 (List.mem_map.mpr ⟨(k0, v), h1, rfl⟩)
      simp [lookup, hne, ih hk.2 h1]

theorem keysDistinct_disconnect (c : String) (st : Store) (hk : KeysDistinct st) :
    KeysDistinct (disconnect c st).1 :=
  List.Nodup.sublist (keys_disconnect_sublist c st) hk

theorem lookup_disconnect (c sid : String) (st : Store) (s : Session)
    (hk : KeysDistinct st) (hs : lookup sid st = some s) :
    ((removePlayer c s).players = [] → lookup sid (disconnect c st).1 = none) ∧
    ((removePlayer c s).players ≠ [] →
      lookup sid (disconnect c st).1 = some (removePlayer c s)) := by
  constructor
  · intro hemp
    cases hl : lookup sid (disconnect c st).1 with
    | none => rfl
    | some s1 =>
      obtain ⟨s2, hs2, _, hne⟩ := (mem_disconnect c st (sid, s1)).mp (lookup_mem _ _ _ hl)
      have h2 := lookup_of_mem sid s2 st hk hs2
      rw [hs] at h2
      injection h2 with h3
      subst h3
      exact absurd hemp hne
  · intro hne
    exact lookup_of_mem sid _ _ (keysDistinct_disconnect c st hk)
      ((mem_disconnect c st (sid, removePlayer c s)).mpr ⟨s, lookup_mem _ _ _ hs, rfl, hne⟩)

theorem lookup_removePlayer (c c1 : String) (s : Session) (p1 : Player)
    (h : lookup c1 (removePlayer c s).players = some p1) : lookup c1 s.players = some p1 := by
  unfold removePlayer at h
  split at h
  · by_cases hc : c1 = c
    · subst hc
      simp [lookup_deleteKey_self] at h
    · rw [lookup_deleteKey_ne _ _ _ hc] at h
      exact h
  · exact h

theorem mono_setKey (st : Store) (sid0 sid c : String) (s0 s s1 : Session) (p p1 : Player)
    (hs : lookup sid st = some s) (hp : lookup c s.players = some p)
    (hs1 : lookup sid (setKey sid0 s0 st) = some s1) (hp1 : lookup c s1.players = some p1)
    (hmono : sid = sid0 → ∀ p2, lookup c s0.players = some p2 → p2.attempts ≤ p.attempts) :
    p1.attempts ≤ p.attempts := by
  by_cases hsid : sid = sid0
  · subst hsid
    rw [lookup_setKey_self] at hs1
    injection hs1 with h
    subst h
    exact hmono rfl p1 hp1
  · rw [lookup_setKey_ne _ _ _ _ hsid, hs] at hs1
    injection hs1 with h
    subst h
    rw [hp] at hp1
    injection hp1 with h
    rw [h]

theorem mono_same (st : Store) (sid c : String) (s s1 : Session) (p p1 : Player)
    (hs : lookup sid st = some s) (hp : lookup c s.players = some p)
    (hs1 : lookup sid st = some s1) (hp1 : lookup c s1.players = some p1) :
    p1.attempts ≤ p.attempts := by
  rw [hs] at hs1
  injection hs1 with h
  subst h
  rw [hp] at hp1
  injection hp1 with h
  rw [h]

theorem attempts_le_after (lower : String → String) (st : Store) (e : Event)
    (sid c : String) (s s1 : Session) (p p1 : Player) (hk : KeysDistinct st)
    (hs : lookup sid st = some s) (hp : lookup c s.players = some p)
    (hs1 : lookup sid (handle lower st e).1 = some s1)
    (hp1 : lookup c s1.players = some p1)
    (hrejoin : ∀ u uid, e ≠ Event.join c u sid (some uid)) :
    p1.attempts ≤ p.attempts := by
  cases e with
  | join c0 u sid0 dbUser =>
    cases dbUser with
    | none => exact mono_same st sid c s s1 p p1 hs hp hs1 hp1
    | some uid =>
      refine mono_setKey st sid0 sid c _ s s1 p p1 hs hp hs1 hp1 ?_
      intro hsid p2 hp2
      subst hsid
      have hc : c ≠ c0 := by
        intro hc
        subst hc
        exact hrejoin u uid rfl
      simp only [hs, Option.getD_some] at hp2
      rw [lookup_setKey_ne _ _ _ _ hc, hp] at hp2
      injection hp2 with h
      rw [h]
  | createQuestion sid0 q a =>
    simp only [handle, step, createQuestion] at hs1
    cases hl : lookup sid0 st with
    | none =>
      simp only [hl] at hs1
      exact mono_same st sid c s s1 p p1 hs hp hs1 hp1
    | some s0 =>
      simp only [hl] at hs1
      refine mono_setKey st sid0 sid c _ s s1 p p1 hs hp hs1 hp1 ?_
      intro hsid p2 hp2
      subst hsid
      rw [hs] at hl
      injection hl with h
      subst h
      simp only [hp] at hp2
      injection hp2 with h
      rw [h]
  | startGame sid0 =>
    simp only [handle, step, startGame] at hs1
    cases hl : lookup sid0 st with
    | none =>
      simp only [hl] at hs1
      exact mono_same st sid c s s1 p p1 hs hp hs1 hp1
    | some s0 =>
      simp only [hl] at hs1
      refine mono_setKey st sid0 sid c _ s s1 p p1 hs hp hs1 hp1 ?_
      intro hsid p2 hp2
      subst hsid
      rw [hs] at hl
      injection hl with h
      subst h
      simp only [hp] at hp2
      injection hp2 with h
      rw [h]
  | makeGuess c0 sid0 g =>
    simp only [handle, step, makeGuess] at hs1
    cases hl : lookup sid0 st with
    | none =>
      simp only [hl] at hs1
      exact mono_same st sid c s s1 p p1 hs hp hs1 hp1
    | some s0 =>
      simp only [hl] at hs1
      split at hs1
      · exact mono_same st sid c s s1 p p1 hs hp hs1 hp1
      · cases hp0 : lookup c0 s0.players with
        | none =>
          simp only [hp0] at hs1
          exact mono_same st sid c s s1 p p1 hs hp hs1 hp1
        | some p0 =>
          simp only [hp0] at hs1
          have key : ∀ (flag : Bool) (p2 : Player), sid = sid0 →
              lookup c (setKey c0 { p0 with attempts := p0.attempts - 1, isWinner := flag }
                s0.players) = some p2 → p2.attempts ≤ p.attempts := by
            intro flag p2 hsid hp2
            subst hsid
            rw [hs] at hl
            injection hl with h
            subst h
            by_cases hc : c = c0
            · subst hc
              rw [lookup_setKey_self] at hp2
              injection hp2 with h
              rw [hp] at hp0
              injection hp0 with h0
              rw [← h, h0]
              simp only
              omega
            · rw [lookup_setKey_ne _ _ _ _ hc, hp] at hp2
              injection hp2 with h
              rw [h]
          split at hs1
          · exact mono_same st sid c s s1 p p1 hs hp hs1 hp1
          · split at hs1
            · exact mono_setKey st sid0 sid c _ s s1 p p1 hs hp hs1 hp1
                (fun hsid p2 hp2 => key true p2 hsid hp2)
            · exact mono_setKey st sid0 sid c _ s s1 p p1 hs hp hs1 hp1
                (fun hsid p2 hp2 => key p0.isWinner p2 hsid hp2)
  | timer sid0 =>
    cases hl : lookup sid0 st with
    | none =>
      simp only [handle, step, roundTimer, hl] at hs1
      exact mono_same st sid c s s1 p p1 hs hp hs1 hp1
    | some s0 =>
      by_cases hst : s0.status = Status.in_progress
      · simp only [handle, step, roundTimer, hl, hst, if_true] at hs1
        refine mono_setKey st sid0 sid c _ s s1 p p1 hs hp hs1 hp1 ?_
        intro hsid p2 hp2
        subst hsid
        rw [hs] at hl
        injection hl with h
        subst h
        simp only [hp] at hp2
        injection hp2 with h
        rw [h]
      · simp only [handle, step, roundTimer, hl, hst, if_false] at hs1
        exact mono_same st sid c s s1 p p1 hs hp hs1 hp1
  | disconnect c0 =>
    simp only [handle, step] at hs1
    by_cases hemp : (removePlayer c0 s).players = []
    · rw [(lookup_disconnect c0 sid st s hk hs).1 hemp] at hs1
      exact absurd hs1 (by simp)
    · rw [(lookup_disconnect c0 sid st s hk hs).2 hemp] at hs1
      injection hs1 with h
      subst h
      have h2 := lookup_removePlayer c0 c s p1 hp1
      rw [hp] at h2
      injection h2 with h
      rw [h]

/-- C12 (amended): for every store with distinct session ids, every single event and
every (session, connection) pair that has a Player before and after it, the Player's
`attempts` after the event is at most its `attempts` before, unless the event is a
`join-session` by that same connection to that same session whose query resolved;
such a join overwrites the Player with `attempts = 3`, whatever it was. -/
theorem attempts_monotone_except_rejoin (lower : String → String) (st : Store) (e : Event)
    (sid c : String) (s s1 : Session) (p p1 : Player) (hk : KeysDistinct st)
    (hs : lookup sid st = some s) (hp : lookup c s.players = some p)
    (hs1 : lookup sid (handle lower st e).1 = some s1)
    (hp1 : lookup c s1.players = some p1) :
    ((∀ u uid, e ≠ Event.join c u sid (some uid)) → p1.attempts ≤ p.attempts) ∧
    (∀ u uid, e = Event.join c u sid (some uid) → p1 = newPlayer uid u ∧ p1.attempts = 3) := by
  refine ⟨attempts_le_after lower st e sid c s s1 p p1 hk hs hp hs1 hp1, ?_⟩
  intro u uid he
  subst he
  simp only [handle, step, joinSession, lookup_setKey_self] at hs1
  injection hs1 with h
  subst h
  simp only [lookup_setKey_self] at hp1
  injection hp1 with h
  subst h
  exact ⟨rfl, rfl⟩

/-- Witness for C12 (amended): a second wrong guess by B in `guessedStore` takes B
from 2 attempts to 1. -/
theorem attempts_monotone_except_rejoin_witness :
    lookup "s1" (handle asciiLower guessedStore (Event.makeGuess "B" "s1" "7")).1 =
      some { players :=
               [("A", { userId := 1, username := "alice", attempts := 3, isWinner := false }),
                ("B", { userId := 2, username := "bob", attempts := 1, isWinner := false })],
             status := Status.in_progress, question := some "2+2?", answer := some "4" } ∧
    ((1 : Int) ≤ 2) :=
  ⟨rfl, (attempts_monotone_except_rejoin asciiLower guessedStore
    (Event.makeGuess "B" "s1" "7") "s1" "B" _ _
    { userId := 2, username := "bob", attempts := 2, isWinner := false }
    { userId := 2, username := "bob", attempts := 1, isWinner := false }
    (by simp [KeysDistinct, guessedStore]) rfl rfl rfl rfl).1 (by intro u uid h; exact Event.noConfusion h)⟩

/-- C12 (counterexample): B has 2 attempts left after a wrong guess; B joins the same
session again and has 3. -/
theorem attempts_monotone_counterexample :
    (∃ effs, run asciiLower [] (roundTrace ++ [Event.makeGuess "B" "s1" "5"]) =
      Except.ok (guessedStore, effs)) ∧
    ¬ AttemptsMonotone asciiLower guessedStore (Event.join "B" "bob" "s1" (some 2)) := by
  refine ⟨⟨_, rfl⟩, ?_⟩
  intro h
  have h1 := h "s1" "B" _ _
    { userId := 2, username := "bob", attempts := 2, isWinner := false }
    { userId := 2, username := "bob", attempts := 3, isWinner := false } rfl rfl rfl rfl
  exact absurd h1 (by decide)

/-! ## Join -/

theorem setKey_setKey {α : Type} (k : String) (v v0 : α) (l : List (String × α)) :
    setKey k v (setKey k v0 l) = setKey k v l := by
  induction l with
  | nil => simp [setKey]
  | cons hd tl ih =>
    obtain ⟨k0, v1⟩ := hd
    by_cases hk : k0 = k
    · simp [setKey, hk]
    · simp [setKey, hk, ih]

theorem count_key_setKey {α : Type} (k : String) (v : α) (l : List (String × α))
    (hk : KeysDistinct l) : ((setKey k v l).map Prod.fst).count k = 1 := by
  apply List.count_eq_one_of_mem (keysDistinct_setKey k v l hk)
  exact List.mem_map.mpr ⟨(k, v), lookup_mem k v _ (lookup_setKey_self k v l), rfl⟩

/-! ## Session lifecycle -/

theorem setKey_ne_nil {α : Type} (k : String) (v : α) (l : List (String × α)) :
    setKey k v l ≠ [] := by
  cases l with
  | nil => simp [setKey]
  | cons hd tl =>
    obtain ⟨k0, v0⟩ := hd
    by_cases hk : k0 = k <;> simp [setKey, hk]

theorem noDead_setKey (st : Store) (sid : String) (s : Session) (hinv : NoDeadSession st)
    (hs : s.players ≠ []) : NoDeadSession (setKey sid s st) :=
  forall_setKey (fun s => s.players ≠ []) st sid s hinv hs

theorem noDead_step (lower : String → String) (st st1 : Store) (e : Event)
    (effs : List Effect) (hinv : NoDeadSession st)
    (hstep : step lower st e = Except.ok (st1, effs)) : NoDeadSession st1 := by
  cases e with
  | join c u sid dbUser =>
    rw [show st1 = (joinSession st c u sid dbUser).1 from by
      simp only [step, Except.ok.injEq] at hstep; rw [hstep]]
    cases dbUser with
    | none => exact hinv
    | some uid =>
      simp only [joinSession]
      exact noDead_setKey _ _ _ hinv (setKey_ne_nil _ _ _)
  | createQuestion sid q a =>
    rw [show st1 = (createQuestion lower st sid q a).1 from by
      simp only [step, Except.ok.injEq] at hstep; rw [hstep]]
    unfold createQuestion
    cases hl : lookup sid st with
    | none => exact hinv
    | some s => exact noDead_setKey _ _ _ hinv (hinv _ (lookup_mem sid s st hl))
  | startGame sid =>
    rw [show st1 = (startGame st sid).1 from by
      simp only [step, Except.ok.injEq] at hstep; rw [hstep]]
    unfold startGame
    cases hl : lookup sid st with
    | none => exact hinv
    | some s => exact noDead_setKey _ _ _ hinv (hinv _ (lookup_mem sid s st hl))
  | makeGuess c sid g =>
    rw [show st1 = (makeGuess lower st c sid g).1 from by
      simp only [step, Except.ok.injEq] at hstep; rw [hstep]]
    unfold makeGuess
    cases hl : lookup sid st with
    | none => exact hinv
    | some s =>
      simp only
      split
      · exact hinv
      · cases hp : lookup c s.players with
        | none => exact hinv
        | some p =>
          simp only
          split
          · exact hinv
          · split
            · exact noDead_setKey _ _ _ hinv (setKey_ne_nil _ _ _)
            · exact noDead_setKey _ _ _ hinv (setKey_ne_nil _ _ _)
  | timer sid =>
    simp only [step] at hstep
    unfold roundTimer at hstep
    cases hl : lookup sid st with
    | none => simp [hl] at hstep
    | some s =>
      simp only [hl] at hstep
      split at hstep
      · simp only [Except.ok.injEq, Prod.mk.injEq] at hstep
        rw [← hstep.1]
        exact noDead_setKey _ _ _ hinv (hinv _ (lookup_mem sid s st hl))
      · simp only [Except.ok.injEq, Prod.mk.injEq] at hstep
        rw [← hstep.1]
        exact hinv
  | disconnect c =>
    rw [show st1 = (disconnect c st).1 from by
      simp only [step, Except.ok.injEq] at hstep; rw [hstep]]
    intro e he
    obtain ⟨s, _, heq, hne⟩ := (mem_disconnect c st e).mp he
    rw [heq]
    exact hne

theorem reachable_noDead (lower : String → String) (st : Store)
    (hreach : Reachable lower st) : NoDeadSession st := by
  obtain ⟨es, effs, hrun⟩ := hreach
  exact run_invariant lower NoDeadSession (noDead_step lower) es [] st effs
    (fun e he => absurd he (List.not_mem_nil e)) hrun

theorem removePlayer_of_absent (c : String) (s : Session) (h : lookup c s.players = none) :
    removePlayer c s = s := by
  simp [removePlayer, h]

theorem lookup_removePlayer_self (c : String) (s : Session) :
    lookup c (removePlayer c s).players = none := by
  unfold removePlayer
  split
  · exact lookup_deleteKey_self c s.players
  · rename_i h
    cases hl : lookup c s.players with
    | none => rfl
    | some p => simp [hl] at h

/-- C14: in every reachable store in which connection `c` is the only player of
session `sid`, whatever its status, question and answer, `disconnect` by `c` yields a
store that does not contain `sid`; a following `join-session` to `sid` by any
connection `c1` yields a session with status `waiting`, no question, no answer and
exactly one Player, keyed `c1`, with `attempts = 3` and `isWinner = false`. -/
theorem last_disconnect_then_fresh_join (lower : String → String) (st : Store)
    (c sid : String) (s : Session) (p : Player) (hreach : Reachable lower st)
    (hs : lookup sid st = some s) (hp : s.players = [(c, p)]) :
    lookup sid (disconnect c st).1 = none ∧
    ∀ (c1 u : String) (uid : Nat),
      lookup sid (joinSession (disconnect c st).1 c1 u sid (some uid)).1 =
        some { players :=
                 [(c1, { userId := uid, username := u, attempts := 3, isWinner := false })],
               status := Status.waiting, question := none, answer := none } := by
  have hk := (reachable_wellFormed lower st hreach).1
  have hemp : (removePlayer c s).players = [] := by
    simp [removePlayer, hp, lookup, deleteKey]
  have hnone := (lookup_disconnect c sid st s hk hs).1 hemp
  refine ⟨hnone, ?_⟩
  intro c1 u uid
  simp only [joinSession, hnone, Option.getD_none, lookup_setKey_self]
  rfl

/-- Witness for C14: A is alone in a session whose round is in progress; A
disconnects and C joins the same id. -/
theorem last_disconnect_then_fresh_join_witness :
    Reachable asciiLower startedUnsetStore ∧
    lookup "s1" (disconnect "A" startedUnsetStore).1 = none ∧
    lookup "s1" (joinSession (disconnect "A" startedUnsetStore).1 "C" "carol" "s1"
      (some 3)).1 =
      some { players :=
               [("C", { userId := 3, username := "carol", attempts := 3, isWinner := false })],
             status := Status.waiting, question := none, answer := none } :=
  have hr : Reachable asciiLower startedUnsetStore := ⟨startedUnsetTrace, _, rfl⟩
  have h := last_disconnect_then_fresh_join asciiLower startedUnsetStore "A" "s1" _
    { userId := 1, username := "alice", attempts := 3, isWinner := false } hr rfl rfl
  ⟨hr, h.1, h.2 "C" "carol" 3⟩

/-- C15: in every store reachable from the empty store, every session has at least
one player; consequently `disconnect` by `c` leaves every session that did not
contain `c` present and unchanged, and afterwards no session contains a Player keyed
`c`. -/
theorem no_dead_sessions (lower : String → String) (st : Store)
    (hreach : Reachable lower st) :
    NoDeadSession st ∧
    ∀ (c : String),
      (∀ sid s, lookup sid st = some s → lookup c s.players = none →
        lookup sid (disconnect c st).1 = some s) ∧
      (∀ e ∈ (disconnect c st).1, lookup c e.2.players = none) := by
  have hdead := reachable_noDead lower st hreach
  have hk := (reachable_wellFormed lower st hreach).1
  refine ⟨hdead, fun c => ⟨?_, ?_⟩⟩
  · intro sid s hs hc
    have h := (lookup_disconnect c sid st s hk hs).2
    rw [removePlayer_of_absent c s hc] at h
    exact h (hdead _ (lookup_mem sid s st hs))
  · intro e he
    obtain ⟨s, _, heq, _⟩ := (mem_disconnect c st e).mp he
    rw [heq]
    exact lookup_removePlayer_self c s

/-- Witness for C15: A is a player of `s1` and of `s2`; a disconnect by B, who is in
neither, leaves `s1` as it was. -/
theorem no_dead_sessions_witness :
    Reachable asciiLower twoSessionStore ∧ NoDeadSession twoSessionStore ∧
    lookup "s1" (disconnect "B" twoSessionStore).1 = lookup "s1" twoSessionStore :=
  have hr : Reachable asciiLower twoSessionStore := ⟨twoSessionTrace, _, rfl⟩
  have h := no_dead_sessions asciiLower twoSessionStore hr
  ⟨hr, h.1, (h.2 "B").1 "s1" _ rfl rfl⟩

/-! ## Behaviour not stated in the specification -/

/-- C19: the timer callback looks only at the current status of the session. On the
trace where round 1 of `s1` is started and won by B, a second question is set and
round 2 is started, two timers have been scheduled for `s1`; when the first of them
fires, round 2 is `in_progress`, and the callback sets the status to `ended` and
broadcasts `game-ended` with winner `null` and the answer of round 2. -/
theorem stale_timer_ends_later_round :
    (∃ effs, run asciiLower [] secondRoundTrace = Except.ok (secondRoundStore, effs) ∧
      effs.filter (fun eff => !isSessionUpdate eff) =
        [Effect.joinRoom "A" "s1",
         Effect.joinRoom "B" "s1",
         Effect.broadcast "s1" (Payload.questionCreated "2+2?"),
         Effect.broadcast "s1" (Payload.gameStarted (some "2+2?")),
         Effect.setTimeout "s1" 60000,
         Effect.broadcast "s1" (Payload.gameEnded (some "bob") (some "4")),
         Effect.addScore 2 10,
         Effect.broadcast "s1" (Payload.questionCreated "3+3?"),
         Effect.broadcast "s1" (Payload.gameStarted (some "3+3?")),
         Effect.setTimeout "s1" 60000]) ∧
    (lookup "s1" secondRoundStore).map (fun s => s.status) = some Status.in_progress ∧
    roundTimer secondRoundStore "s1" =
      Except.ok (staleEndedStore,
        [Effect.broadcast "s1" (Payload.gameEnded none (some "6"))]) ∧
    (lookup "s1" staleEndedStore).map (fun s => s.status) = some Status.ended ∧
    (∃ effs, run asciiLower [] (secondRoundTrace ++ [Event.timer "s1"]) =
      Except.ok (staleEndedStore, effs)) :=
  ⟨⟨_, rfl, rfl⟩, rfl, rfl, rfl, ⟨_, rfl⟩⟩

theorem mem_disconnect_effects (c sid : String) (st : Store) (s : Session)
    (hs : (sid, s) ∈ st) (hc : (lookup c s.players).isSome = true) :
    Effect.broadcast sid (Payload.sessionUpdate (removePlayer c s)) ∈ (disconnect c st).2 := by
  induction st with
  | nil => simp at hs
  | cons hd tl ih =>
    obtain ⟨sid0, s0⟩ := hd
    have key : Effect.broadcast sid (Payload.sessionUpdate (removePlayer c s)) ∈
        (if (lookup c s0.players).isSome = true then
          [Effect.broadcast sid0 (Payload.sessionUpdate (removePlayer c s0))] else []) ++
          (disconnect c tl).2 := by
      rcases List.mem_cons.mp hs with h | h
      · injection h with h1 h2
        subst h1 h2
        simp [hc]
      · exact List.mem_append_right _ (ih h)
    simp only [disconnect]
    split
    · exact key
    · exact key

/-- C20: in every store where session `sid` has its answer set, whatever its status,
`join-session` to `sid` broadcasts to the session a `session-update` whose payload is
the whole session as it is after the join, with its `answer` field equal to the
session's answer; and `disconnect` by a player of `sid` broadcasts a `session-update`
whose payload is the session after the removal, answer included. -/
theorem snapshot_carries_answer (st : Store) (c u sid : String) (uid : Nat)
    (s : Session) (a : String) (hs : lookup sid st = some s) (ha : s.answer = some a) :
    (∃ snap,
      (joinSession st c u sid (some uid)).2 =
        [Effect.joinRoom c sid, Effect.broadcast sid (Payload.sessionUpdate snap)] ∧
      lookup sid (joinSession st c u sid (some uid)).1 = some snap ∧
      snap.answer = some a ∧ snap.status = s.status) ∧
    ((lookup c s.players).isSome = true →
      ∃ snap,
        Effect.broadcast sid (Payload.sessionUpdate snap) ∈ (disconnect c st).2 ∧
        snap.players = deleteKey c s.players ∧
        snap.answer = some a ∧ snap.status = s.status) := by
  constructor
  · refine ⟨_, rfl, lookup_setKey_self _ _ _, ?_, ?_⟩
    · rw [hs]
      exact ha
    · rw [hs]
      rfl
  · intro hc
    refine ⟨removePlayer c s, mem_disconnect_effects c sid st s (lookup_mem _ _ _ hs) hc,
      ?_, ?_, ?_⟩
    · simp [removePlayer, hc]
    · rw [removePlayer_answer, ha]
    · rw [removePlayer_status]

/-- Witness for C20: C joins `s1` while its round is in progress; the broadcast
snapshot shows the answer `4` with status `in_progress`. -/
theorem snapshot_carries_answer_witness :
    lookup "s1" roundStore = some roundSession ∧
    ∃ snap,
      (joinSession roundStore "C" "carol" "s1" (some 3)).2 =
        [Effect.joinRoom "C" "s1", Effect.broadcast "s1" (Payload.sessionUpdate snap)] ∧
      snap.answer = some "4" ∧ snap.status = Status.in_progress :=
  ⟨rfl, by
    obtain ⟨snap, h1, _, h3, h4⟩ :=
      (snapshot_carries_answer roundStore "C" "carol" "s1" 3 roundSession "4" rfl rfl).1
    exact ⟨snap, h1, h3, h4⟩⟩

/-! ## Handlers on every session id -/

theorem reachesInherited_of_some (w : World) (sid : String) (s : Session)
    (h : lookup sid w.sessions = some s) : reachesInherited w sid = false := by
  simp [reachesInherited, h]

theorem reachesInherited_of_plain (w : World) (sid : String)
    (h : isInherited sid = false) : reachesInherited w sid = false := by
  simp [reachesInherited, h]

theorem onJoinSession_own (w : World) (c u sid : String) (dbUser : Option Nat)
    (h : reachesInherited w sid = false) :
    onJoinSession w c u sid dbUser =
      ({ w with sessions := (joinSession w.sessions c u sid dbUser).1 },
        (joinSession w.sessions c u sid dbUser).2) := by
  simp [onJoinSession, h]

theorem onCreateQuestion_own (lower : String → String) (w : World) (sid q a : String)
    (h : reachesInherited w sid = false) :
    onCreateQuestion lower w sid q a =
      ({ w with sessions := (createQuestion lower w.sessions sid q a).1 },
        (createQuestion lower w.sessions sid q a).2) := by
  simp [onCreateQuestion, h]

theorem onStartGame_own (w : World) (sid : String) (h : reachesInherited w sid = false) :
    onStartGame w sid =
      ({ w with sessions := (startGame w.sessions sid).1 }, (startGame w.sessions sid).2) := by
  simp [onStartGame, h]

theorem onMakeGuess_own (lower : String → String) (w : World) (c sid g : String)
    (h : reachesInherited w sid = false) :
    onMakeGuess lower w c sid g =
      Except.ok ({ w with sessions := (makeGuess lower w.sessions c sid g).1 },
        (makeGuess lower w.sessions c sid g).2) := by
  simp [onMakeGuess, h]

theorem onEvent_own (lower : String → String) (w : World) (e : Event) (sid : String)
    (r : Store × List Effect) (he : eventSession e = some sid)
    (h : reachesInherited w sid = false) (hstep : step lower w.sessions e = Except.ok r) :
    onEvent lower w e = Except.ok ({ w with sessions := r.1 }, r.2) := by
  cases e with
  | join c u sid0 dbUser =>
    simp only [eventSession, Option.some.injEq] at he
    subst he
    simp only [step, Except.ok.injEq] at hstep
    subst hstep
    simp only [onEvent, onJoinSession_own w c u sid0 dbUser h]
  | createQuestion sid0 q a =>
    simp only [eventSession, Option.some.injEq] at he
    subst he
    simp only [step, Except.ok.injEq] at hstep
    subst hstep
    simp only [onEvent, onCreateQuestion_own lower w sid0 q a h]
  | startGame sid0 =>
    simp only [eventSession, Option.some.injEq] at he
    subst he
    simp only [step, Except.ok.injEq] at hstep
    subst hstep
    simp only [onEvent, onStartGame_own w sid0 h]
  | makeGuess c sid0 g =>
    simp only [eventSession, Option.some.injEq] at he
    subst he
    simp only [step, Except.ok.injEq] at hstep
    subst hstep
    simp only [onEvent, onMakeGuess_own lower w c sid0 g h]
  | timer sid0 =>
    simp only [eventSession, Option.some.injEq] at he
    subst he
    simp only [step] at hstep
    simp [onEvent, onTimer, h, hstep]
  | disconnect c => simp [eventSession] at he

theorem step_returns (lower : String → String) (st : Store) (e : Event) (sid : String)
    (he : eventSession e = some sid)
    (hpres : e = Event.timer sid → lookup sid st ≠ none) :
    ∃ r, step lower st e = Except.ok r := by
  cases e with
  | join c u sid0 dbUser => exact ⟨_, rfl⟩
  | createQuestion sid0 q a => exact ⟨_, rfl⟩
  | startGame sid0 => exact ⟨_, rfl⟩
  | makeGuess c sid0 g => exact ⟨_, rfl⟩
  | timer sid0 =>
    simp only [eventSession, Option.some.injEq] at he
    subst he
    cases hl : lookup sid0 st with
    | none => exact absurd hl (hpres rfl)
    | some s =>
      simp only [step, roundTimer, hl]
      split
      · exact ⟨_, rfl⟩
      · exact ⟨_, rfl⟩
  | disconnect c => simp [eventSession] at he

theorem isolation_ok (lower : String → String) (st : Store) (e : Event) (sid sid1 : String)
    (he : eventSession e = some sid) (hne : sid1 ≠ sid) :
    lookup sid1 (handle lower st e).1 = lookup sid1 st ∧
    ∀ eff ∈ (handle lower st e).2, addressedTo eff ≠ some sid1 := by
  have hne2 : ¬ sid = sid1 := fun h => hne h.symm
  cases e with
  | join c u sid0 dbUser =>
    simp only [eventSession, Option.some.injEq] at he
    subst he
    cases dbUser with
    | none => simp [handle, step, joinSession]
    | some uid =>
      simp only [handle, step, joinSession]
      refine ⟨lookup_setKey_ne _ _ _ _ hne, ?_⟩
      intro eff heff
      simp only [List.mem_cons, List.mem_singleton, List.not_mem_nil, or_false] at heff
      rcases heff with h | h <;> subst h <;> simp [addressedTo, hne2]
  | createQuestion sid0 q a =>
    simp only [eventSession, Option.some.injEq] at he
    subst he
    cases hl : lookup sid0 st with
    | none => simp [handle, step, createQuestion, hl]
    | some s =>
      simp only [handle, step, createQuestion, hl]
      refine ⟨lookup_setKey_ne _ _ _ _ hne, ?_⟩
      intro eff heff
      simp only [List.mem_singleton] at heff
      subst heff
      simp [addressedTo, hne2]
  | startGame sid0 =>
    simp only [eventSession, Option.some.injEq] at he
    subst he
    cases hl : lookup sid0 st with
    | none => simp [handle, step, startGame, hl]
    | some s =>
      simp only [handle, step, startGame, hl]
      refine ⟨lookup_setKey_ne _ _ _ _ hne, ?_⟩
      intro eff heff
      simp only [List.mem_cons, List.mem_singleton, List.not_mem_nil, or_false] at heff
      rcases heff with h | h <;> subst h <;> simp [addressedTo, hne2]
  | makeGuess c sid0 g =>
    simp only [eventSession, Option.some.injEq] at he
    subst he
    cases hl : lookup sid0 st with
    | none => simp [handle, step, makeGuess, hl]
    | some s =>
      by_cases hst : s.status = Status.in_progress
      · cases hp : lookup c s.players with
        | none => simp [handle, step, makeGuess, hl, hst, hp]
        | some p =>
          by_cases hg : p.attempts = 0 ∨ p.isWinner = true
          · have hd := makeGuess_dropped lower st c sid0 g
              (Or.inr ⟨s, hl, Or.inr (Or.inr ⟨p, hp, hg⟩)⟩)
            simp [handle, step, hd]
          · have h0 : p.attempts ≠ 0 := fun h => hg (Or.inl h)
            have hw : p.isWinner = false := by
              cases h : p.isWinner
              · rfl
              · exact absurd (Or.inr h) hg
            by_cases ha : some (lower g) = s.answer
            · have hd := makeGuess_win lower st c sid0 g s p hl hst hp h0 hw ha
              simp only [handle, step, hd]
              refine ⟨lookup_setKey_ne _ _ _ _ hne, ?_⟩
              intro eff heff
              simp only [List.mem_cons, List.mem_singleton, List.not_mem_nil,
                or_false] at heff
              rcases heff with h | h <;> subst h <;> simp [addressedTo, hne2]
            · have hd := makeGuess_wrong lower st c sid0 g s p hl hst hp h0 hw ha
              simp only [handle, step, hd]
              refine ⟨lookup_setKey_ne _ _ _ _ hne, ?_⟩
              intro eff heff
              simp only [List.mem_singleton] at heff
              subst heff
              simp [addressedTo]
      · have hd := makeGuess_dropped lower st c sid0 g (Or.inr ⟨s, hl, Or.inl hst⟩)
        simp [handle, step, hd]
  | timer sid0 =>
    simp only [eventSession, Option.some.injEq] at he
    subst he
    cases hl : lookup sid0 st with
    | none => simp [handle, step, roundTimer, hl]
    | some s =>
      by_cases hst : s.status = Status.in_progress
      · simp only [handle, step, roundTimer, hl, hst, if_true]
        refine ⟨lookup_setKey_ne _ _ _ _ hne, ?_⟩
        intro eff heff
        simp only [List.mem_singleton] at heff
        subst heff
        simp [addressedTo, hne2]
      · simp [handle, step, roundTimer, hl, hst]
  | disconnect c => simp [eventSession] at he

/-- C5 (amended): in every world whose sessions are reachable from the empty store,
the session ids are distinct and, within each session, every connection id is the
key of at most one Player; but a connection may have a Player in several sessions,
because a join adds to its memberships. With `Object.prototype` untouched, after
`join-session` (query resolved) by `c` to a session id that does not resolve to an
inherited property, `c` has a fresh Player in that session and every other session,
with any Player keyed `c` in it, is exactly as before. -/
theorem join_adds_membership (lower : String → String) (w : World)
    (hreach : Reachable lower w.sessions) (hp : Pristine w) :
    WellFormed w.sessions ∧
    ∀ (c u sid : String) (uid : Nat), reachesInherited w sid = false →
      (∃ s1, lookup sid (onJoinSession w c u sid (some uid)).1.sessions = some s1 ∧
        lookup c s1.players = some (newPlayer uid u)) ∧
      (∀ sid1, sid1 ≠ sid →
        lookup sid1 (onJoinSession w c u sid (some uid)).1.sessions =
          lookup sid1 w.sessions) ∧
      Pristine (onJoinSession w c u sid (some uid)).1 := by
  refine ⟨reachable_wellFormed lower w.sessions hreach, ?_⟩
  intro c u sid uid hsid
  rw [onJoinSession_own w c u sid (some uid) hsid]
  simp only [joinSession]
  exact ⟨⟨_, lookup_setKey_self _ _ _, lookup_setKey_self _ _ _⟩,
    fun sid1 hne => lookup_setKey_ne _ _ _ _ hne, hp⟩

/-- Witness for C5 (amended): A, already a player of `s1`, joins `s2`; the session
`s1` is untouched. -/
theorem join_adds_membership_witness :
    Reachable asciiLower (worldOf loneStore).sessions ∧
    reachesInherited (worldOf loneStore) "s2" = false ∧
    lookup "s1" (onJoinSession (worldOf loneStore) "A" "alice" "s2" (some 1)).1.sessions =
      lookup "s1" (worldOf loneStore).sessions :=
  have h : Reachable asciiLower (worldOf loneStore).sessions :=
    ⟨[Event.join "A" "alice" "s1" (some 1)], _, rfl⟩
  ⟨h, by decide,
    ((join_adds_membership asciiLower (worldOf loneStore) h rfl).2
      "A" "alice" "s2" 1 (by decide)).2.1 "s1" (by decide)⟩

/-- C9 (amended): a guess is dropped (the handler returns without error, the world is
unchanged and no effect is emitted) when the store holds no session under the id and
the id does not name an inherited property, `Object.prototype` being untouched, or
when the store holds a session under the id and its status is not `in_progress`, or
the connection has no Player in it, or that Player has `attempts = 0`, or that
Player has `isWinner = true`. -/
theorem dropped_guess (lower : String → String) (w : World) (c sid g : String)
    (h : (lookup sid w.sessions = none ∧ isInherited sid = false ∧ Pristine w) ∨
      ∃ s, lookup sid w.sessions = some s ∧
        (s.status ≠ Status.in_progress ∨ lookup c s.players = none ∨
          ∃ p, lookup c s.players = some p ∧ (p.attempts = 0 ∨ p.isWinner = true))) :
    onEvent lower w (Event.makeGuess c sid g) = Except.ok (w, []) := by
  have hown : reachesInherited w sid = false := by
    rcases h with ⟨_, h2, _⟩ | ⟨s, hs, _⟩
    · exact reachesInherited_of_plain w sid h2
    · exact reachesInherited_of_some w sid s hs
  have hd : makeGuess lower w.sessions c sid g = (w.sessions, []) := by
    apply makeGuess_dropped
    rcases h with ⟨h1, _, _⟩ | h
    · exact Or.inl h1
    · exact Or.inr h
  simp only [onEvent, onMakeGuess_own lower w c sid g hown, hd]

/-- Witness for C9 (amended): B, who has won the previous round, guesses while the
status is `ready`; A guesses in an unknown session. -/
theorem dropped_guess_witness :
    onEvent asciiLower (worldOf wonThenReadyStore) (Event.makeGuess "B" "s1" "6") =
      Except.ok (worldOf wonThenReadyStore, []) ∧
    onEvent asciiLower (worldOf wonThenReadyStore) (Event.makeGuess "A" "s9" "6") =
      Except.ok (worldOf wonThenReadyStore, []) :=
  ⟨dropped_guess asciiLower (worldOf wonThenReadyStore) "B" "s1" "6"
      (Or.inr ⟨_, rfl, Or.inl (by decide)⟩),
   dropped_guess asciiLower (worldOf wonThenReadyStore) "A" "s9" "6"
      (Or.inl ⟨rfl, by decide, rfl⟩)⟩

/-- C9 (counterexample): at start-up no session is stored under `toString`, which
names an inherited function. `start-game` with that id writes `status` onto the
function; a following `make-guess` with that id passes the test of line 97 and
throws a `TypeError` at line 99. -/
theorem dropped_guess_counterexample :
    lookup "toString" initialWorld.sessions = none ∧
    (∃ w1 effs,
      onEvent asciiLower initialWorld (Event.startGame "toString") = Except.ok (w1, effs) ∧
      lookup "toString" w1.sessions = none ∧
      onEvent asciiLower w1 (Event.makeGuess "A" "toString" "x") =
        Except.error Err.typeError) ∧
    runEvents asciiLower initialWorld
        [Event.startGame "toString", Event.makeGuess "A" "toString" "x"] =
      Except.error Err.typeError :=
  ⟨rfl, ⟨_, _, rfl, rfl, rfl⟩, rfl⟩

/-- C13 (amended): with `Object.prototype` untouched, for every connection `c`,
username `u` and session id that does not resolve to an inherited property, the user
store returning the same id both times, applying `join-session` twice gives the same
world as applying it once. In the result `c` is keyed to one Player of the session,
with username `u`, `attempts = 3` and `isWinner = false`; if the session existed, its
status, question, answer and every other player are as before the join, and if it did
not, the session is the fresh `waiting` one with that single player. -/
theorem join_idempotent (w : World) (c u sid : String) (uid : Nat) (hp : Pristine w)
    (hsid : reachesInherited w sid = false) :
    (onJoinSession (onJoinSession w c u sid (some uid)).1 c u sid (some uid)).1 =
      (onJoinSession w c u sid (some uid)).1 ∧
    Pristine (onJoinSession w c u sid (some uid)).1 ∧
    ∃ s1, lookup sid (onJoinSession w c u sid (some uid)).1.sessions = some s1 ∧
      lookup c s1.players =
        some { userId := uid, username := u, attempts := 3, isWinner := false } ∧
      ((∀ s0, lookup sid w.sessions = some s0 → KeysDistinct s0.players) →
        (s1.players.map Prod.fst).count c = 1) ∧
      (∀ s0, lookup sid w.sessions = some s0 →
        s1.status = s0.status ∧ s1.question = s0.question ∧ s1.answer = s0.answer ∧
        ∀ c1, c1 ≠ c → lookup c1 s1.players = lookup c1 s0.players) ∧
      (lookup sid w.sessions = none →
        s1 = { players := [(c, newPlayer uid u)], status := Status.waiting,
               question := none, answer := none }) := by
  have h1 := onJoinSession_own w c u sid (some uid) hsid
  have hsid2 : reachesInherited (onJoinSession w c u sid (some uid)).1 sid = false := by
    rw [h1]
    exact reachesInherited_of_some _ sid _ (lookup_setKey_self _ _ _)
  refine ⟨?_, ?_, ?_⟩
  · rw [onJoinSession_own _ c u sid (some uid) hsid2, h1]
    simp only [joinSession, lookup_setKey_self, Option.getD_some, setKey_setKey]
  · rw [h1]
    exact hp
  · rw [h1]
    simp only [joinSession]
    refine ⟨_, lookup_setKey_self _ _ _, lookup_setKey_self _ _ _, ?_, ?_, ?_⟩
    · intro hd
      apply count_key_setKey
      cases hl : lookup sid w.sessions with
      | none => simp [newSession, KeysDistinct]
      | some s0 => simpa using hd s0 hl
    · intro s0 hs0
      rw [hs0]
      exact ⟨rfl, rfl, rfl, fun c1 hne => lookup_setKey_ne _ _ _ _ hne⟩
    · intro hnone
      simp only [hnone, Option.getD_none, newSession, setKey]

/-- Witness for C13 (amended): B, who has 2 attempts left in `guessedStore`, joins
again, twice. -/
theorem join_idempotent_witness :
    reachesInherited (worldOf guessedStore) "s1" = false ∧
    (onJoinSession (onJoinSession (worldOf guessedStore) "B" "bob" "s1" (some 2)).1
        "B" "bob" "s1" (some 2)).1 = worldOf roundStore ∧
    (onJoinSession (worldOf guessedStore) "B" "bob" "s1" (some 2)).1 = worldOf roundStore :=
  ⟨by decide,
   (join_idempotent (worldOf guessedStore) "B" "bob" "s1" 2 rfl (by decide)).1.trans rfl,
   rfl⟩

/-- C13 (counterexample): `constructor` names an inherited function. After
`join-session` by A to that id (query resolved) the world is unchanged: there is no
session under that id, hence no Player keyed A, and nothing was emitted. -/
theorem join_idempotent_counterexample :
    isInherited "constructor" = true ∧
    onJoinSession initialWorld "A" "alice" "constructor" (some 1) = (initialWorld, []) ∧
    lookup "constructor"
      (onJoinSession initialWorld "A" "alice" "constructor" (some 1)).1.sessions = none ∧
    runEvents asciiLower initialWorld [Event.join "A" "alice" "constructor" (some 1)] =
      Except.ok (initialWorld, []) :=
  ⟨by decide, rfl, rfl, rfl⟩

/-- C16 (amended): `create-question` with an id under which the store holds no
session leaves the world unchanged and emits nothing, provided the id does not name
an inherited property and `Object.prototype` is untouched. On a session of the
store, whatever its status, it sets `question = q`, `answer = lower a` and
`status = ready`, leaves the players and the inherited objects unchanged, and its
only effect is one broadcast `question-created` to the session carrying `q`. -/
theorem create_question_post (lower : String → String) (w : World)
    (sid q a : String) :
    (lookup sid w.sessions = none → isInherited sid = false → Pristine w →
      onCreateQuestion lower w sid q a = (w, [])) ∧
    (∀ s, lookup sid w.sessions = some s →
      ∃ w1 s1,
        onCreateQuestion lower w sid q a =
          (w1, [Effect.broadcast sid (Payload.questionCreated q)]) ∧
        lookup sid w1.sessions = some s1 ∧
        s1.question = some q ∧ s1.answer = some (lower a) ∧ s1.status = Status.ready ∧
        s1.players = s.players ∧ w1.written = w.written) := by
  constructor
  · intro h hsid _
    rw [onCreateQuestion_own lower w sid q a (reachesInherited_of_plain w sid hsid)]
    simp [createQuestion, h]
  · intro s hs
    rw [onCreateQuestion_own lower w sid q a (reachesInherited_of_some w sid s hs),
      createQuestion_some lower w.sessions sid q a s hs]
    exact ⟨_, _, rfl, lookup_setKey_self _ _ _, rfl, rfl, rfl, rfl, rfl⟩

/-- Witness for C16 (amended): a new question is set while round 1 of `roundStore` is
in progress; an unknown session id is ignored. -/
theorem create_question_post_witness :
    onCreateQuestion asciiLower (worldOf roundStore) "s9" "3+3?" "Six" =
      (worldOf roundStore, []) ∧
    ∃ w1 s1,
      onCreateQuestion asciiLower (worldOf roundStore) "s1" "3+3?" "Six" =
        (w1, [Effect.broadcast "s1" (Payload.questionCreated "3+3?")]) ∧
      lookup "s1" w1.sessions = some s1 ∧
      s1.question = some "3+3?" ∧ s1.answer = some (asciiLower "Six") ∧
      s1.status = Status.ready ∧ s1.players = roundSession.players ∧
      w1.written = (worldOf roundStore).written :=
  ⟨(create_question_post asciiLower (worldOf roundStore) "s9" "3+3?" "Six").1 rfl
      (by decide) rfl,
   (create_question_post asciiLower (worldOf roundStore) "s1" "3+3?" "Six").2
      roundSession rfl⟩

/-- C16 (counterexample): at start-up no session is stored under `toString`, which
names an inherited function; `create-question` with that id writes onto the function
and broadcasts `question-created`. -/
theorem create_question_counterexample :
    lookup "toString" initialWorld.sessions = none ∧
    onCreateQuestion asciiLower initialWorld "toString" "q" "A" =
      ({ sessions := [],
         written := [("toString",
           { status := some Status.ready, question := some "q", answer := some "a" })] },
       [Effect.broadcast "toString" (Payload.questionCreated "q")]) :=
  ⟨rfl, rfl⟩

/-- C17 (amended): with `Object.prototype` untouched, `start-game` with an id under
which the store holds no session leaves the world unchanged, emits nothing and
schedules no timer, provided the id does not name an inherited property. On a
session of the store, whatever its status, it sets `status = in_progress`, leaves
the question, the answer, the players (with their `attempts` and `isWinner`) and the
inherited objects unchanged, and its effects are exactly one broadcast
`game-started` carrying the session's question followed by one `setTimeout` of
60000 ms for the session. -/
theorem start_game_post (w : World) (sid : String) (hp : Pristine w) :
    (lookup sid w.sessions = none → isInherited sid = false →
      onStartGame w sid = (w, [])) ∧
    (∀ s, lookup sid w.sessions = some s →
      ∃ w1 s1,
        onStartGame w sid =
          (w1, [Effect.broadcast sid (Payload.gameStarted s.question),
                Effect.setTimeout sid 60000]) ∧
        lookup sid w1.sessions = some s1 ∧
        s1.status = Status.in_progress ∧ s1.question = s.question ∧
        s1.answer = s.answer ∧ s1.players = s.players ∧ Pristine w1) := by
  constructor
  · intro h hsid
    rw [onStartGame_own w sid (reachesInherited_of_plain w sid hsid)]
    simp [startGame, h]
  · intro s hs
    rw [onStartGame_own w sid (reachesInherited_of_some w sid s hs),
      startGame_some w.sessions sid s hs]
    exact ⟨_, _, rfl, lookup_setKey_self _ _ _, rfl, rfl, rfl, rfl, hp⟩

/-- Witness for C17 (amended): a new round is started on `twoWinnerStore`, whose two
players have both won a round and have 2 attempts left; flags and attempts are
kept. -/
theorem start_game_post_witness :
    onStartGame (worldOf twoWinnerStore) "s9" = (worldOf twoWinnerStore, []) ∧
    ∃ w1 s1,
      onStartGame (worldOf twoWinnerStore) "s1" =
        (w1, [Effect.broadcast "s1" (Payload.gameStarted (some "3+3?")),
              Effect.setTimeout "s1" 60000]) ∧
      lookup "s1" w1.sessions = some s1 ∧ s1.status = Status.in_progress ∧
      s1.players =
        [("A", { userId := 1, username := "alice", attempts := 2, isWinner := true }),
         ("B", { userId := 2, username := "bob", attempts := 2, isWinner := true })] :=
  ⟨(start_game_post (worldOf twoWinnerStore) "s9" rfl).1 rfl (by decide), by
    obtain ⟨w1, s1, h1, h2, h3, _, _, h6, _⟩ :=
      (start_game_post (worldOf twoWinnerStore) "s1" rfl).2 _ rfl
    exact ⟨w1, s1, h1, h2, h3, h6⟩⟩

/-- C17 (counterexample): at start-up no session is stored under `toString`, which
names an inherited function; `start-game` with that id writes `status` onto the
function, broadcasts `game-started` and schedules a timer. -/
theorem start_game_counterexample :
    lookup "toString" initialWorld.sessions = none ∧
    onStartGame initialWorld "toString" =
      ({ sessions := [],
         written := [("toString",
           { status := some Status.in_progress, question := none, answer := none })] },
       [Effect.broadcast "toString" (Payload.gameStarted none),
        Effect.setTimeout "toString" 60000]) :=
  ⟨rfl, rfl⟩

/-- C18 (amended): with `Object.prototype` untouched, for every two distinct session
ids `sid ≠ sid1` where `sid` does not resolve to an inherited property, each of
`join-session`, `create-question`, `start-game` and `make-guess` for `sid`, and the
round-timer firing for `sid` when the store holds `sid`, returns without error,
leaves the session `sid1` exactly as it was (present or absent, with the same
players, status, question and answer), emits no effect addressed to `sid1` and
writes nothing onto `Object.prototype`. -/
theorem session_isolation (lower : String → String) (w : World) (e : Event)
    (sid sid1 : String) (hp : Pristine w) (he : eventSession e = some sid)
    (hsid : reachesInherited w sid = false) (hne : sid1 ≠ sid)
    (hpres : e = Event.timer sid → lookup sid w.sessions ≠ none) :
    ∃ w1 effs, onEvent lower w e = Except.ok (w1, effs) ∧
      lookup sid1 w1.sessions = lookup sid1 w.sessions ∧
      (∀ eff ∈ effs, addressedTo eff ≠ some sid1) ∧
      Pristine w1 := by
  obtain ⟨r, hr⟩ := step_returns lower w.sessions e sid he hpres
  have hh : handle lower w.sessions e = r := by simp [handle, hr]
  have iso := isolation_ok lower w.sessions e sid sid1 he hne
  rw [hh] at iso
  exact ⟨{ w with sessions := r.1 }, r.2, onEvent_own lower w e sid r he hsid hr,
    iso.1, iso.2, hp⟩

/-- Witness for C18 (amended): A is a player of `s1` and `s2`; A starts the round of
`s2`, and `s1` stays as it was. -/
theorem session_isolation_witness :
    ∃ w1 effs,
      onEvent asciiLower (worldOf twoSessionStore) (Event.startGame "s2") =
        Except.ok (w1, effs) ∧
      lookup "s1" w1.sessions = lookup "s1" (worldOf twoSessionStore).sessions ∧
      (∀ eff ∈ effs, addressedTo eff ≠ some "s1") ∧ Pristine w1 :=
  session_isolation asciiLower (worldOf twoSessionStore) (Event.startGame "s2") "s2" "s1"
    rfl rfl (by decide) (by decide) (by intro h; exact Event.noConfusion h)

/-- C18 (counterexample): A joins `s1`, B joins `s9` and starts its round, then B
disconnects, which deletes `s9`. When the timer of `s9` fires, the callback does not
return: it throws a `TypeError`, so the event does not leave A's session `s1` as it
was. -/
theorem session_isolation_counterexample :
    (∃ effs, runEvents asciiLower initialWorld isolationTrace =
        Except.ok (isolationWorld, effs) ∧
      Effect.setTimeout "s9" 60000 ∈ effs) ∧
    (lookup "s1" isolationWorld.sessions).isSome = true ∧
    onEvent asciiLower isolationWorld (Event.timer "s9") = Except.error Err.typeError ∧
    ¬ ∃ w1 effs, onEvent asciiLower isolationWorld (Event.timer "s9") =
        Except.ok (w1, effs) ∧
      lookup "s1" w1.sessions = lookup "s1" isolationWorld.sessions ∧
      ∀ eff ∈ effs, addressedTo eff ≠ some "s1" := by
  refine ⟨⟨_, rfl, by decide⟩, rfl, rfl, ?_⟩
  rintro ⟨w1, effs, h, _⟩
  have h2 : onEvent asciiLower isolationWorld (Event.timer "s9") =
      Except.error Err.typeError := rfl
  rw [h2] at h
  exact Except.noConfusion h

end GuessingGame
